import Mathlib

/-
Verification of the tau-bench error-analysis pipeline
(`phase2/error_analysis/classify_errors.py` and
`phase2/error_analysis/analyze_crashes.py`) against its specification.

The Python scripts are shallowly embedded: JSON values are the inductive
`JVal`, Python dictionary/list/string operations are modelled by functions
returning `Except PyErr` wherever the Python code can raise, and the
external LLM call is an oracle parameter `Nat → Except String String`
(call index to response text or transport-exception message).
-/

set_option maxRecDepth 100000

/-- JSON values as produced by json.load, with Python semantics attached.
Python ints and floats are collapsed into one rational constructor, since
the scripts only ever compare them numerically; the IEEE specials that
json.loads admits (NaN, Infinity, -Infinity) get a separate constructor. -/
inductive JVal where
  | jnull : JVal
  | jbool : Bool → JVal
  | jnum : Rat → JVal
  | jspecial : String → JVal
  | jstr : String → JVal
  | jarr : List JVal → JVal
  | jobj : List (String × JVal) → JVal

open JVal

/-- Python exceptions the embedded code can raise. -/
inductive PyErr where
  | typeError : String → PyErr
  | keyError : String → PyErr
  | attributeError : String → PyErr
  | valueError : String → PyErr
deriving DecidableEq, Repr

/-- Python truthiness of a JSON value. -/
def JVal.truthy : JVal → Bool
  | jnull => false
  | jbool b => b
  | jnum q => q != 0
  | jspecial _ => true
  | jstr s => s != ""
  | jarr xs => !xs.isEmpty
  | jobj kvs => !kvs.isEmpty

/-- Numeric view used by Python ==: bools compare as 0/1 against numbers. -/
def JVal.numView : JVal → Option Rat
  | jbool b => some (if b then 1 else 0)
  | jnum q => some q
  | _ => none

mutual
/-- Python == on JSON values: numeric across bool/number, structural
otherwise.  Dicts are compared entrywise in identical key order, which
matches Python wherever the scripts compare dicts (they only ever compare
dicts produced by the same code path). -/
def pyEq : JVal → JVal → Bool
  | jnull, jnull => true
  | jspecial a, jspecial b => a == b && a != "nan"
  | jstr s, jstr t => s == t
  | jarr xs, jarr ys => pyEqList xs ys
  | jobj xs, jobj ys => pyEqObj xs ys
  | a, b =>
    match a.numView, b.numView with
    | some x, some y => x == y
    | _, _ => false

def pyEqList : List JVal → List JVal → Bool
  | [], [] => true
  | x :: xs, y :: ys => pyEq x y && pyEqList xs ys
  | _, _ => false

def pyEqObj : List (String × JVal) → List (String × JVal) → Bool
  | [], [] => true
  | (k, v) :: xs, (k2, v2) :: ys => k == k2 && pyEq v v2 && pyEqObj xs ys
  | _, _ => false
end

/-- First-match association lookup, the read side of a Python dict. -/
def jLookup (kvs : List (String × JVal)) (k : String) : Option JVal :=
  match kvs with
  | [] => none
  | (k2, v) :: rest => if k2 == k then some v else jLookup rest k

/-- Python dict assignment: overwrite in place if the key exists
(preserving its position), otherwise append. -/
def jInsert (kvs : List (String × JVal)) (k : String) (v : JVal) :
    List (String × JVal) :=
  match kvs with
  | [] => [(k, v)]
  | (k2, w) :: rest =>
    if k2 == k then (k2, v) :: rest else (k2, w) :: jInsert rest k v

/-- Python `x.get(key, default)`: AttributeError on anything but a dict. -/
def pyGetD (v : JVal) (k : String) (d : JVal) : Except PyErr JVal :=
  match v with
  | jobj kvs => .ok ((jLookup kvs k).getD d)
  | _ => .error (.attributeError "object has no attribute get")

/-- Python `x[key]` with a string key: KeyError on a dict without the key,
TypeError on anything that is not a dict. -/
def pyIndex (v : JVal) (k : String) : Except PyErr JVal :=
  match v with
  | jobj kvs =>
    match jLookup kvs k with
    | some w => .ok w
    | none => .error (.keyError k)
  | _ => .error (.typeError "value is not subscriptable by a string")

/-- Does `cs` start with `pat`? -/
def listStartsWith (pat cs : List Char) : Bool :=
  match pat, cs with
  | [], _ => true
  | _ :: _, [] => false
  | p :: ps, c :: rest => p == c && listStartsWith ps rest

/-- Does `pat` occur as a contiguous run anywhere in `cs`? -/
def containsSub (pat cs : List Char) : Bool :=
  match cs with
  | [] => listStartsWith pat []
  | _ :: rest => listStartsWith pat cs || containsSub pat rest

/-- Index of the leftmost occurrence of `pat` in `cs`. -/
def subIdx (pat cs : List Char) : Option Nat :=
  match cs with
  | [] => if listStartsWith pat [] then some 0 else none
  | _ :: rest =>
    if listStartsWith pat cs then some 0
    else (subIdx pat rest).map (· + 1)

/-- Python `needle in container` for a string needle. -/
def pyIn (needle : String) (v : JVal) : Except PyErr Bool :=
  match v with
  | jobj kvs => .ok ((jLookup kvs needle).isSome)
  | jarr xs => .ok (xs.any (fun x => pyEq (jstr needle) x))
  | jstr s => .ok (containsSub needle.toList s.toList)
  | _ => .error (.typeError "argument is not iterable")

/-- Python iteration `for x in v`: lists yield elements, strings yield
one-character strings, everything else raises TypeError. -/
def pyIter (v : JVal) : Except PyErr (List JVal) :=
  match v with
  | jarr xs => .ok xs
  | jstr s => .ok (s.toList.map (fun c => jstr (String.mk [c])))
  | _ => .error (.typeError "object is not iterable")

/-- Python `len`. -/
def pyLen (v : JVal) : Except PyErr Nat :=
  match v with
  | jarr xs => .ok xs.length
  | jstr s => .ok s.toList.length
  | jobj kvs => .ok kvs.length
  | _ => .error (.typeError "object has no len")

/-- Python `<` restricted to the key types the scripts sort by:
numbers/bools compare numerically, strings lexicographically,
anything else raises TypeError. -/
def pyLt (a b : JVal) : Except PyErr Bool :=
  match a.numView, b.numView with
  | some x, some y => .ok (decide (x < y))
  | _, _ =>
    match a, b with
    | jstr s, jstr t => .ok (decide (s < t))
    | _, _ => .error (.typeError "unsupported operand types for comparison")

/-- Python str.strip whitespace set (ASCII part, which is all the scripts
ever strip): space, tab, newline, carriage return, vertical tab, form
feed. -/
def isPyWs (c : Char) : Bool :=
  c.toNat = 32 || (9 ≤ c.toNat && c.toNat ≤ 13)

/-- JSON inter-token whitespace per json.loads: space, tab, newline,
carriage return. -/
def isJsonWs (c : Char) : Bool :=
  c.toNat = 32 || c.toNat = 9 || c.toNat = 10 || c.toNat = 13

/-- Whitespace class of the regex \s (ASCII part), the same six
characters as the str.strip set. -/
def isReWs (c : Char) : Bool := isPyWs c

/-- Drop trailing characters satisfying `p`. -/
def dropTrailing (p : Char → Bool) (cs : List Char) : List Char :=
  (cs.reverse.dropWhile p).reverse

/-- Python str.strip(). -/
def pyStrip (cs : List Char) : List Char :=
  dropTrailing isPyWs (cs.dropWhile isPyWs)

/-- Decimal digits to a natural number (most significant first). -/
def digitsToNat (ds : List Char) : Nat :=
  ds.foldl (fun acc c => acc * 10 + (c.toNat - 48)) 0

/-- One escape character of a JSON string literal: the three identity
escapes (quote, backslash, slash) and the five control-character
escapes b, f, n, r, t. -/
def jsonEscChar (c : Char) : Option Char :=
  match c.toNat with
  | 34 => some c
  | 92 => some c
  | 47 => some c
  | 98 => some (Char.ofNat 8)
  | 102 => some (Char.ofNat 12)
  | 110 => some (Char.ofNat 10)
  | 114 => some (Char.ofNat 13)
  | 116 => some (Char.ofNat 9)
  | _ => none

def hexVal (c : Char) : Option Nat :=
  if '0' ≤ c && c ≤ '9' then some (c.toNat - 48)
  else if 'a' ≤ c && c ≤ 'f' then some (c.toNat - 87)
  else if 'A' ≤ c && c ≤ 'F' then some (c.toNat - 55)
  else none

/-- Body of a JSON string literal (after the opening quote): returns the
decoded characters and the remainder after the closing quote.  Strict mode:
raw control characters are rejected, as json.loads does by default. -/
def parseJStringBody : List Char → Option (List Char × List Char)
  | [] => none
  | '"' :: rest => some ([], rest)
  | '\\' :: 'u' :: a :: b :: c :: d :: rest =>
    match hexVal a, hexVal b, hexVal c, hexVal d with
    | some x, some y, some z, some w =>
      (parseJStringBody rest).map
        (fun r => (Char.ofNat (((x * 16 + y) * 16 + z) * 16 + w) :: r.1, r.2))
    | _, _, _, _ => none
  | '\\' :: e :: rest =>
    match jsonEscChar e with
    | some c => (parseJStringBody rest).map (fun r => (c :: r.1, r.2))
    | none => none
  | c :: rest =>
    if c.toNat < 32 then none
    else (parseJStringBody rest).map (fun r => (c :: r.1, r.2))

/-- JSON number after an optional leading minus sign: digits with the
no-leading-zero rule, optional fraction, optional exponent.  Returns the
value as an exact rational. -/
def parseJNumAbs (cs : List Char) : Option (Rat × List Char) :=
  let int := cs.takeWhile (fun c => '0' ≤ c && c ≤ '9')
  let rest := cs.drop int.length
  if int.isEmpty then none
  else if int.length > 1 && int.headD '0' == '0' then none
  else
    let base : Rat := (digitsToNat int : Int)
    let (withFrac, rest2) :=
      match rest with
      | '.' :: fs =>
        let frac := fs.takeWhile (fun c => '0' ≤ c && c ≤ '9')
        if frac.isEmpty then (none, rest)
        else
          (some (base + (digitsToNat frac : Rat) / ((10 : Rat) ^ frac.length)),
           fs.drop frac.length)
      | _ => (some base, rest)
    match withFrac with
    | none => none
    | some v =>
      match rest2 with
      | 'e' :: es | 'E' :: es =>
        let (neg, es2) :=
          match es with
          | '-' :: t => (true, t)
          | '+' :: t => (false, t)
          | _ => (false, es)
        let ex := es2.takeWhile (fun c => '0' ≤ c && c ≤ '9')
        if ex.isEmpty then some (v, rest2)
        else
          let e10 : Rat := (10 : Rat) ^ digitsToNat ex
          some (if neg then v / e10 else v * e10, es2.drop ex.length)
      | _ => some (v, rest2)

mutual
/-- Recursive-descent JSON value parser mirroring json.loads; `fuel` bounds
the nesting depth (any fuel at least the input length suffices). -/
def parseJValue : Nat → List Char → Option (JVal × List Char)
  | 0, _ => none
  | fuel + 1, cs =>
    match cs.dropWhile isJsonWs with
    | [] => none
    | '{' :: rest => parseJMembers fuel (rest.dropWhile isJsonWs) []
    | '[' :: rest => parseJItems fuel (rest.dropWhile isJsonWs) []
    | '"' :: rest =>
      (parseJStringBody rest).map (fun r => (jstr (String.mk r.1), r.2))
    | 't' :: rest =>
      if listStartsWith ['r', 'u', 'e'] rest then
        some (jbool true, rest.drop 3)
      else none
    | 'f' :: rest =>
      if listStartsWith ['a', 'l', 's', 'e'] rest then
        some (jbool false, rest.drop 4)
      else none
    | 'n' :: rest =>
      if listStartsWith ['u', 'l', 'l'] rest then some (jnull, rest.drop 3)
      else none
    | 'N' :: rest =>
      if listStartsWith ['a', 'N'] rest then some (jspecial "nan", rest.drop 2)
      else none
    | 'I' :: rest =>
      if listStartsWith "nfinity".toList rest then
        some (jspecial "inf", rest.drop 7)
      else none
    | '-' :: rest =>
      if listStartsWith "Infinity".toList rest then
        some (jspecial "-inf", rest.drop 8)
      else (parseJNumAbs rest).map (fun r => (jnum (-r.1), r.2))
    | c :: rest =>
      if '0' ≤ c && c ≤ '9' then
        (parseJNumAbs (c :: rest)).map (fun r => (jnum r.1, r.2))
      else none

/-- Members of a JSON object after the opening brace (leading whitespace
already dropped); duplicate keys overwrite, as for a Python dict. -/
def parseJMembers (fuel : Nat) (cs : List Char) (acc : List (String × JVal)) :
    Option (JVal × List Char) :=
  match fuel, cs with
  | _, '}' :: rest => some (jobj acc.reverse, rest)
  | 0, _ => none
  | fuel + 1, '"' :: rest =>
    match parseJStringBody rest with
    | none => none
    | some (key, rest2) =>
      match rest2.dropWhile isJsonWs with
      | ':' :: rest3 =>
        match parseJValue fuel rest3 with
        | none => none
        | some (v, rest4) =>
          let acc2 := (jInsert acc.reverse (String.mk key) v).reverse
          match rest4.dropWhile isJsonWs with
          | ',' :: rest5 => parseJMembers fuel (rest5.dropWhile isJsonWs) acc2
          | '}' :: rest5 => some (jobj acc2.reverse, rest5)
          | _ => none
      | _ => none
  | _, _ => none

/-- Items of a JSON array after the opening bracket (leading whitespace
already dropped). -/
def parseJItems (fuel : Nat) (cs : List Char) (acc : List JVal) :
    Option (JVal × List Char) :=
  match fuel, cs with
  | _, ']' :: rest => some (jarr acc.reverse, rest)
  | 0, _ => none
  | fuel + 1, cs =>
    match parseJValue fuel cs with
    | none => none
    | some (v, rest) =>
      match rest.dropWhile isJsonWs with
      | ',' :: rest2 => parseJItems fuel (rest2.dropWhile isJsonWs) (v :: acc)
      | ']' :: rest2 => some (jarr (v :: acc).reverse, rest2)
      | _ => none
end

/-- json.loads on a character list: one JSON value, possibly surrounded by
whitespace, nothing else. -/
def jsonLoads (cs : List Char) : Option JVal :=
  match parseJValue (cs.length + 1) cs with
  | some (v, rest) => if (rest.dropWhile isJsonWs).isEmpty then some v else none
  | none => none

/- ── MT19937, the generator behind random.seed / random.sample ────────────
The 624-word state is packed into one natural number, 32 bits per word. -/

def mtWord (s i : Nat) : Nat := (s >>> (32 * i)) &&& 4294967295

def mtSetWord (s i v : Nat) : Nat := s ^^^ ((mtWord s i ^^^ v) <<< (32 * i))

def w32 (x : Nat) : Nat := x % 4294967296

/-- Case split forcing a natural number to a literal during kernel
reduction, which keeps the evaluation of the generator loops below at
constant stack depth. -/
def natCase (n : Nat) (f : Nat → α) : α :=
  match n with
  | 0 => f 0
  | m + 1 => f (m + 1)

/-- init_genrand recurrence filling words `i ..` from the previous word. -/
def mtInitLoop (s prev i : Nat) : Nat → Nat
  | 0 => s
  | n + 1 =>
    natCase (w32 (1812433253 * (prev ^^^ (prev >>> 30)) + i)) fun v =>
    natCase (mtSetWord s i v) fun s2 =>
    mtInitLoop s2 v (i + 1) n

def mtInitGenrand (seed : Nat) : Nat :=
  mtInitLoop (mtSetWord 0 0 (w32 seed)) (w32 seed) 1 623

/-- First mixing pass of init_by_array (key injection). Returns the state
and the word index where the second pass starts. -/
def mtMix1 (key : List Nat) (kl : Nat) : Nat → Nat → Nat → Nat → Nat × Nat
  | s, i, _, 0 => (s, i)
  | s, i, j, n + 1 =>
    natCase (mtWord s (i - 1)) fun prev =>
    natCase (w32 ((mtWord s i ^^^ (w32 ((prev ^^^ (prev >>> 30)) * 1664525)))
      + key.getD j 0 + j)) fun v =>
    natCase (mtSetWord s i v) fun s2 =>
    natCase (if i + 1 ≥ 624 then mtSetWord s2 0 (mtWord s2 623) else s2) fun s3 =>
    mtMix1 key kl s3 (if i + 1 ≥ 624 then 1 else i + 1)
      (if j + 1 ≥ kl then 0 else j + 1) n

/-- Second mixing pass of init_by_array. -/
def mtMix2 : Nat → Nat → Nat → Nat
  | s, _, 0 => s
  | s, i, n + 1 =>
    natCase (mtWord s (i - 1)) fun prev =>
    natCase (((mtWord s i ^^^ (w32 ((prev ^^^ (prev >>> 30)) * 1566083941)))
      + 4294967296 - (i % 4294967296)) % 4294967296) fun v =>
    natCase (mtSetWord s i v) fun s2 =>
    natCase (if i + 1 ≥ 624 then mtSetWord s2 0 (mtWord s2 623) else s2) fun s3 =>
    mtMix2 s3 (if i + 1 ≥ 624 then 1 else i + 1) n

structure MTState where
  pool : Nat
  idx : Nat

def mtInitByArray (key : List Nat) : MTState :=
  let kl := key.length
  let (s1, i1) := mtMix1 key kl (mtInitGenrand 19650218) 1 0 (max 624 kl)
  let s2 := mtMix2 s1 i1 623
  ⟨mtSetWord s2 0 2147483648, 624⟩

/-- CPython splits the (absolute value of the) integer seed into 32-bit
words, least significant first, using one zero word for seed 0.  The fuel
is the maximal word count; any seed below 2^(32*fuel) is split exactly. -/
def seedChunksF : Nat → Nat → List Nat
  | 0, _ => []
  | fuel + 1, n =>
    if n = 0 then [] else (n &&& 4294967295) :: seedChunksF fuel (n >>> 32)

def pySeed (seed : Nat) : MTState :=
  mtInitByArray (if seed = 0 then [0] else seedChunksF 256 seed)

/-- One tempered 32-bit output, twisting the pool when it is exhausted. -/
def mtTwistStep (s kk : Nat) : Nat :=
  let y := (mtWord s kk &&& 2147483648) ||| (mtWord s ((kk + 1) % 624) &&& 2147483647)
  mtSetWord s kk
    ((mtWord s ((kk + 397) % 624)) ^^^ (y >>> 1) ^^^ (if y % 2 = 1 then 2567483615 else 0))

def mtTwistLoop (s kk : Nat) : Nat → Nat
  | 0 => s
  | n + 1 => natCase (mtTwistStep s kk) fun s2 => mtTwistLoop s2 (kk + 1) n

def mtTwist (s : Nat) : Nat := mtTwistLoop s 0 624

def mtTemper (y : Nat) : Nat :=
  let y1 := y ^^^ (y >>> 11)
  let y2 := y1 ^^^ ((y1 <<< 7) &&& 2636928640)
  let y3 := y2 ^^^ ((y2 <<< 15) &&& 4022730752)
  y3 ^^^ (y3 >>> 18)

def mtGen (st : MTState) : Nat × MTState :=
  if st.idx ≥ 624 then
    let p := mtTwist st.pool
    (mtTemper (mtWord p 0), ⟨p, 1⟩)
  else
    (mtTemper (mtWord st.pool st.idx), ⟨st.pool, st.idx + 1⟩)

/-- random.getrandbits: one 32-bit word per 32 requested bits, least
significant word first, the last word truncated from the top. -/
def getRandBitsF : Nat → MTState → Nat → Nat × MTState
  | 0, st, _ => (0, st)
  | fuel + 1, st, k =>
    if k ≤ 32 then
      let (y, st2) := mtGen st
      (y >>> (32 - k), st2)
    else
      let (y, st2) := mtGen st
      let (hi, st3) := getRandBitsF fuel st2 (k - 32)
      (y + (hi <<< 32), st3)

def getRandBits (st : MTState) (k : Nat) : Nat × MTState :=
  getRandBitsF (k + 1) st k

/-- int.bit_length, by structural recursion on a 64-word fuel. -/
def bitLenF : Nat → Nat → Nat
  | 0, _ => 0
  | fuel + 1, n => if n = 0 then 0 else bitLenF fuel (n >>> 1) + 1

def bitLen (n : Nat) : Nat := bitLenF 256 n

/-- Random._randbelow_with_getrandbits: rejection sampling on
bit_length-sized draws.  `fuel` bounds the rejection loop, which Python
leaves unbounded; it is never exhausted in any evaluation below. -/
def randBelow (st : MTState) (n : Nat) : Nat → Option (Nat × MTState)
  | 0 => none
  | fuel + 1 =>
    let (r, st2) := getRandBits st (bitLen n)
    if r < n then some (r, st2) else randBelow st2 n fuel

/-- Least e with 4^e at least m; equals ceil(log(m, 4)) as computed with
floats in random.sample for every feasible k (3k is never a power of 4). -/
def ceilLog4 (m : Nat) : Nat :=
  ((List.range 33).find? (fun e => m ≤ 4 ^ e)).getD 33

def pySetSize (k : Nat) : Nat :=
  if k > 5 then 21 + 4 ^ ceilLog4 (k * 3) else 21

/-- Pool branch of random.sample: partial Fisher-Yates from a copied pool. -/
def samplePool (st : MTState) (pool : List JVal) (n i : Nat) :
    Nat → Option (List JVal)
  | 0 => some []
  | cnt + 1 => do
    let (j, st2) ← randBelow st (n - i) 1000
    let x := pool.getD j jnull
    let pool2 := pool.set j (pool.getD (n - i - 1) jnull)
    let rest ← samplePool st2 pool2 n (i + 1) cnt
    pure (x :: rest)

/-- Draw an index below n not yet selected (set branch of random.sample). -/
def samplePickNew (st : MTState) (n : Nat) (selected : List Nat) :
    Nat → Option (Nat × MTState)
  | 0 => none
  | fuel + 1 => do
    let (j, st2) ← randBelow st n 1000
    if selected.contains j then samplePickNew st2 n selected fuel
    else some (j, st2)

def sampleSet (st : MTState) (population : List JVal) (n : Nat)
    (selected : List Nat) : Nat → Option (List JVal)
  | 0 => some []
  | cnt + 1 => do
    let (j, st2) ← samplePickNew st n selected 1000
    let rest ← sampleSet st2 population n (j :: selected) cnt
    pure (population.getD j jnull :: rest)

/-- random.sample(population, k) after random.seed(seed). -/
def pySample (seed : Nat) (population : List JVal) (k : Nat) :
    Option (List JVal) :=
  let st := pySeed seed
  let n := population.length
  if k > n then none
  else if n ≤ pySetSize k then samplePool st population n 0 k
  else sampleSet st population n [] k

/- ── load_and_sample (classify_errors.py lines 160-191) ──────────────── -/

/-- The failure filter of load_and_sample:
reward == 0.0, "task" in info, truthy traj — with Python evaluation order
and exceptions. -/
def failCheck (e : JVal) : Except PyErr Bool := do
  let r ← pyGetD e "reward" (jnum 1)
  if pyEq r (jnum 0) then
    let info ← pyGetD e "info" (jobj [])
    let b ← pyIn "task" info
    if b then
      let t ← pyGetD e "traj" jnull
      pure t.truthy
    else pure false
  else pure false

def filterFailures : List JVal → Except PyErr (List JVal)
  | [] => .ok []
  | e :: rest => do
    let b ← failCheck e
    let tail ← filterFailures rest
    pure (if b then e :: tail else tail)

/-- Python hashability of a JSON value (dict keys). -/
def hashable : JVal → Bool
  | jarr _ => false
  | jobj _ => false
  | _ => true

/-- Lookup in the `seen` dict, whose keys compare by Python ==. -/
def seenLookup (seen : List (JVal × JVal)) (tid : JVal) : Option JVal :=
  match seen with
  | [] => none
  | (k, v) :: rest => if pyEq k tid then some v else seenLookup rest tid

def seenUpdate (seen : List (JVal × JVal)) (tid e : JVal) :
    List (JVal × JVal) :=
  match seen with
  | [] => [(tid, e)]
  | (k, v) :: rest =>
    if pyEq k tid then (k, e) :: rest else (k, v) :: seenUpdate rest tid e

/-- The dedup loop of load_and_sample: keep one entry per task_id, the one
with the lowest trial number, insertion-ordered like a Python dict. -/
def dedupLoop : List JVal → List (JVal × JVal) →
    Except PyErr (List (JVal × JVal))
  | [], seen => .ok seen
  | e :: rest, seen => do
    let tid ← pyIndex e "task_id"
    if !hashable tid then
      .error (.typeError "unhashable type")
    else
      match seenLookup seen tid with
      | none => dedupLoop rest (seen ++ [(tid, e)])
      | some old => do
        let tr ← pyGetD e "trial" (jnum 0)
        let trOld ← pyGetD old "trial" (jnum 0)
        let lt ← pyLt tr trOld
        dedupLoop rest (if lt then seenUpdate seen tid e else seen)

/-- Stable insertion into a key-sorted list (equal keys keep order), with
Python comparison semantics on the sort keys. -/
def insSorted (k v : JVal) : List (JVal × JVal) →
    Except PyErr (List (JVal × JVal))
  | [] => .ok [(k, v)]
  | (k2, v2) :: rest => do
    let lt ← pyLt k k2
    if lt then .ok ((k, v) :: (k2, v2) :: rest)
    else do
      let t ← insSorted k v rest
      pure ((k2, v2) :: t)

def sortLoop : List (JVal × JVal) → List (JVal × JVal) →
    Except PyErr (List (JVal × JVal))
  | [], acc => .ok acc
  | (k, v) :: rest, acc => do
    let acc2 ← insSorted k v acc
    sortLoop rest acc2

/-- The computed sort keys: x["task_id"] per value. -/
def keyWith : List JVal → Except PyErr (List (JVal × JVal))
  | [] => .ok []
  | v :: rest => do
    let k ← pyIndex v "task_id"
    let t ← keyWith rest
    pure ((k, v) :: t)

/-- sorted(values, key=lambda x: x["task_id"]): a stable sort raising
TypeError on incomparable keys (Python only raises when an incomparable
pair is actually compared; this model raises on any mixed-type key set,
which agrees on the homogeneous keys the data contains). -/
def sortByTid (l : List JVal) : Except PyErr (List JVal) := do
  let keyed ← keyWith l
  let sorted ← sortLoop keyed []
  pure (sorted.map (·.2))

/-- load_and_sample: filter to failures, dedup by task_id keeping the
lowest trial, sort by task_id, and either return everything (when at most
sample_size unique failures exist) or draw a seeded random.sample.
Returns the sampled failure entries and the total entry count. -/
def loadAndSampleFile (fileData : JVal) (sampleSize seed : Nat) :
    Except PyErr (List JVal × Nat) := do
  let data ← pyIter fileData
  let failures ← filterFailures data
  let seen ← dedupLoop failures []
  let unique ← sortByTid (seen.map (·.2))
  if unique.length ≤ sampleSize then .ok (unique, data.length)
  else
    match pySample seed unique sampleSize with
    | some s => .ok (s, data.length)
    | none => .error (.valueError "sample failed")

/- ── extract_policy (classify_errors.py lines 211-222) ───────────────── -/

def marker1 : List Char := "#Available tools".toList
def marker2 : List Char := "# Available tools".toList
def marker3 : List Char := "#Available Tools".toList

def policyMarkers : List (List Char) := [marker1, marker2, marker3]

/-- content.split(marker)[0]: the prefix before the first occurrence. -/
def splitHead (pat cs : List Char) : List Char :=
  match subIdx pat cs with
  | some i => cs.take i
  | none => cs

def extractPolicyLoop (ms : List (List Char)) (cs : List Char) : List Char :=
  match ms with
  | [] => cs.take 3000
  | m :: rest =>
    if containsSub m cs then pyStrip (splitHead m cs)
    else extractPolicyLoop rest cs

/-- extract_policy: try the three exact markers in order; on the first one
present, return the stripped prefix before its first occurrence; otherwise
the first 3000 characters. -/
def extractPolicy (cs : List Char) : List Char :=
  extractPolicyLoop policyMarkers cs

/- ── classify_crash (analyze_crashes.py lines 100-139) ───────────────── -/

structure CrashInfo where
  crashType : String
  tokensUsed : Option Nat
  tokenLimit : Option Nat
  errorShort : String
deriving DecidableEq, Repr

/-- Leftmost match of the pattern `pre(\d+)post`: literal prefix, greedy
nonempty digit run, literal suffix; the captured number. -/
def reSearchNumBetween (pre post cs : List Char) : Option Nat :=
  match cs with
  | [] => none
  | _ :: rest =>
    let hit :=
      if listStartsWith pre cs then
        let afterPre := cs.drop pre.length
        let ds := afterPre.takeWhile Char.isDigit
        if !ds.isEmpty && listStartsWith post (afterPre.drop ds.length) then
          some (digitsToNat ds)
        else none
      else none
    match hit with
    | some n => some n
    | none => reSearchNumBetween pre post rest

def optNatStr : Option Nat → String
  | some n => toString n
  | none => "None"

/-- classify_crash on an error string. -/
def classifyCrash (errorMsg : String) : CrashInfo :=
  let cs := errorMsg.toList
  if containsSub "ContextWindowExceeded".toList cs then
    let tu := reSearchNumBetween "your request has ".toList
      " input tokens".toList cs
    let tl := reSearchNumBetween "maximum context length is ".toList
      " tokens".toList cs
    { crashType := "context_window", tokensUsed := tu, tokenLimit := tl,
      errorShort :=
        match tu with
        | some t =>
          if t ≠ 0 then
            "Context window exceeded (" ++ toString t ++ "/" ++ optNatStr tl
              ++ " tokens)"
          else "Context window exceeded"
        | none => "Context window exceeded" }
  else if containsSub "Timeout".toList cs
      || containsSub "APITimeout".toList cs then
    { crashType := "api_timeout", tokensUsed := none, tokenLimit := none,
      errorShort := "API request timed out" }
  else
    { crashType := "other", tokensUsed := none, tokenLimit := none,
      errorShort := String.mk ((splitHead ['\n'] cs).take 120) }

/-- classify_crash applied to an arbitrary info.error value, with the
Python `in`/`.split` exceptions for non-string arguments. -/
def classifyCrashJ (err : JVal) : Except PyErr CrashInfo :=
  match err with
  | jstr s => .ok (classifyCrash s)
  | _ => do
    let b1 ← pyIn "ContextWindowExceeded" err
    if b1 then .error (.typeError "expected string or bytes-like object")
    else do
      let b2 ← pyIn "Timeout" err
      let b3 ← if b2 then pure true else pyIn "APITimeout" err
      if b2 || b3 then
        .ok { crashType := "api_timeout", tokensUsed := none,
              tokenLimit := none, errorShort := "API request timed out" }
      else .error (.attributeError "object has no attribute split")

/-- One element of scan_file crashes: the classify_crash dict with
task_id, trial and config_label appended in assignment order. -/
def crashRecord (c : CrashInfo) (taskId trial : JVal) (configLabel : String) :
    JVal :=
  jobj [("crash_type", jstr c.crashType),
        ("tokens_used", match c.tokensUsed with
          | some n => jnum n | none => jnull),
        ("token_limit", match c.tokenLimit with
          | some n => jnum n | none => jnull),
        ("error_short", jstr c.errorShort),
        ("task_id", taskId), ("trial", trial),
        ("config_label", jstr configLabel)]

/-- The crash-detection loop of scan_file: entries whose info contains an
"error" member are classified, everything else is skipped here. -/
def scanFileCrashes (configLabel : String) : List JVal →
    Except PyErr (List JVal)
  | [] => .ok []
  | e :: rest => do
    let info ← pyGetD e "info" (jobj [])
    let taskId ← pyGetD e "task_id" (jstr "?")
    let trial ← pyGetD e "trial" (jstr "?")
    let hasErr ← pyIn "error" info
    if hasErr then do
      let errv ← pyIndex info "error"
      let c ← classifyCrashJ errv
      let tail ← scanFileCrashes configLabel rest
      pure (crashRecord c taskId trial configLabel :: tail)
    else
      scanFileCrashes configLabel rest

/-- The crash fields save_json writes per crash (analyze_crashes.py lines
397-409): over_by = tokens_used - token_limit, appended only when
tokens_used is present (a present tokens_used with an absent token_limit
would raise a TypeError on the subtraction). -/
def saveJsonCrashEntry (config : String) (taskId trial : JVal)
    (c : CrashInfo) : Except PyErr JVal :=
  let base := [("config", jstr config), ("task_id", taskId),
               ("trial", trial), ("crash_type", jstr c.crashType),
               ("error_short", jstr c.errorShort)]
  match c.tokensUsed with
  | none => .ok (jobj base)
  | some tu =>
    match c.tokenLimit with
    | none => .error (.typeError "unsupported operand types for subtraction")
    | some tl =>
      .ok (jobj (base ++ [("tokens_used", jnum tu), ("token_limit", jnum tl),
        ("over_by", jnum ((tu : Rat) - (tl : Rat)))]))

/- ── parse_response (classify_errors.py lines 445-482) ───────────────── -/

/-- Lazy group of the fenced-block pattern: the shortest brace span whose
closing brace is followed by optional whitespace and three backticks.
`body` holds the chars consumed so far, reversed. -/
def fenceLazy (body : List Char) : List Char → Option (List Char)
  | [] => none
  | c :: rest =>
    if c == '}' && listStartsWith "```".toList (rest.dropWhile isReWs) then
      some ('{' :: (body.reverse ++ ['}']))
    else fenceLazy (c :: body) rest

def fenceAttemptBody (cs : List Char) : Option (List Char) :=
  match cs.dropWhile isReWs with
  | '{' :: rest => fenceLazy [] rest
  | _ => none

/-- After an opening fence: the optional json tag is tried greedily first,
with backtracking, as the regex engine does. -/
def fenceAttempt (cs : List Char) : Option (List Char) :=
  match (if listStartsWith "json".toList cs then fenceAttemptBody (cs.drop 4)
         else none) with
  | some g => some g
  | none => fenceAttemptBody cs

/-- Leftmost match of the fenced-code-block pattern used by strategy 2 of
parse_response, returning its captured group. -/
def findFenced : List Char → Option (List Char)
  | [] => none
  | c :: rest =>
    match (if listStartsWith "```".toList (c :: rest) then
             fenceAttempt ((c :: rest).drop 3)
           else none) with
    | some g => some g
    | none => findFenced rest

def pcLit : List Char := '"' :: ("primary_category".toList ++ ['"'])

/-- Match attempt of strategy 3 at one position: an opening brace, a
brace-free run containing the quoted primary_category literal, a closing
brace. -/
def pcAttempt (cs : List Char) : Option (List Char) :=
  match cs with
  | '{' :: rest =>
    let run := rest.takeWhile (fun c => c != '{' && c != '}')
    match rest.drop run.length with
    | '}' :: _ =>
      if containsSub pcLit run then some ('{' :: (run ++ ['}'])) else none
    | _ => none
  | _ => none

def findPC : List Char → Option (List Char)
  | [] => none
  | c :: rest =>
    match pcAttempt (c :: rest) with
    | some g => some g
    | none => findPC rest

def parseErrVerdict (t : List Char) : JVal :=
  jobj [("primary_category", jstr "parse_error"),
        ("sub_category", jstr "none"),
        ("explanation",
         jstr ("Could not parse LLM response: " ++ String.mk (t.take 200)))]

def strat3 (t : List Char) : Except PyErr JVal :=
  match findPC t with
  | some g =>
    match jsonLoads g with
    | some r => .ok r
    | none => .ok (parseErrVerdict t)
  | none => .ok (parseErrVerdict t)

def strat2 (t : List Char) : Except PyErr JVal :=
  match findFenced t with
  | some g =>
    match jsonLoads g with
    | some r => .ok r
    | none => strat3 t
  | none => strat3 t

/-- parse_response: strip, then (1) whole-text JSON with a
primary_category key, (2) fenced code block, (3) flat object containing
"primary_category", (4) parse_error sentinel.  The membership test of
strategy 1 is Python `in`, which raises TypeError when the parsed value
is not a container — that exception escapes parse_response. -/
def parseResponse (text : List Char) : Except PyErr JVal :=
  let t := pyStrip text
  match jsonLoads t with
  | some r => do
    let b ← pyIn "primary_category" r
    if b then .ok r else strat2 t
  | none => strat2 t

/- ── the error taxonomy and verdict validation (lines 39-77, 496-498) ── -/

def errTaxonomy : List (String × String) :=
  [("wrong_tool",
    "Agent called the wrong tool entirely (e.g., cancel_reservation when it should have called update_reservation_flights)"),
   ("wrong_arguments",
    "Correct tool but wrong parameters (e.g., wrong reservation_id, wrong payment_method, wrong flight number, wrong date)"),
   ("policy_violation",
    "Agent violated a domain rule (e.g., modifying basic economy, cancelling without insurance, giving unauthorized refund, skipping user authentication)"),
   ("incomplete_execution",
    "Agent completed some but not all required actions (e.g., changed flights but forgot to update baggage or passengers)"),
   ("premature_escalation",
    "Agent transferred to a human agent when it could have handled the request with available tools"),
   ("information_error",
    "Agent gave the user incorrect information (wrong price, wrong policy detail, wrong flight status) which affected the conversation outcome"),
   ("reasoning_failure",
    "Agent misunderstood user intent or made a wrong plan despite having correct information available from tools and conversation"),
   ("user_simulator_error",
    "The user simulator gave ambiguous, contradictory, or hallucinated instructions that caused the agent to fail through no fault of its own"),
   ("context_or_format_error",
    "Conversation cut short (context window overflow), malformed JSON action, or other infrastructure/parsing failure")]

def validCategories : List String :=
  (errTaxonomy.map (·.1)) ++ ["parse_error", "api_error"]

/-- The category validation inside classify_one: a primary_category
outside the closed set is overwritten with "other"; a non-dict verdict
raises AttributeError at the .get, an unhashable category raises
TypeError at the set membership. -/
def validateCategory (result : JVal) : Except PyErr JVal :=
  match result with
  | jobj kvs =>
    let pc := (jLookup kvs "primary_category").getD jnull
    if !hashable pc then .error (.typeError "unhashable type")
    else if validCategories.any (fun k => pyEq pc (jstr k)) then .ok result
    else .ok (jobj (jInsert kvs "primary_category" (jstr "other")))
  | _ => .error (.attributeError "object has no attribute get")

/- ── string rendering helpers used by the prompt builder ─────────────── -/

/-- The single-quote character, written by code point. -/
def sqChar : Char := Char.ofNat 39

/-- Decimal rendering of a rational whose denominator divides a power of
ten (every number json.loads can produce), matching str() on the numbers
the scripts interpolate. -/
def ratDecStr (q : Rat) : String :=
  if q.den == 1 then toString q.num
  else
    match (List.range 31).find? (fun k => (q * ((10 : Rat)) ^ k).den == 1) with
    | some k =>
      let a : Rat := |q|
      let t : Nat := (a * ((10 : Rat)) ^ k).num.toNat
      let s := toString t
      let s := if s.length ≤ k then
          String.mk (List.replicate (k + 1 - s.length) '0') ++ s
        else s
      let intPart := String.mk (s.toList.take (s.length - k))
      let fracPart := String.mk (s.toList.drop (s.length - k))
      (if q < 0 then "-" else "") ++ intPart ++ "." ++ fracPart
    | none => toString q.num ++ "/" ++ toString q.den

mutual
/-- Python repr of a JSON value, as interpolated by f-strings for
non-string values.  String quoting is simplified to plain single quotes
(no property proved below depends on repr output of strings). -/
def pyRepr : JVal → String
  | jnull => "None"
  | jbool b => if b then "True" else "False"
  | jnum q => ratDecStr q
  | jspecial s => s
  | jstr s => String.mk [sqChar] ++ s ++ String.mk [sqChar]
  | jarr xs => "[" ++ pyReprList xs ++ "]"
  | jobj kvs => "\x7b" ++ pyReprObj kvs ++ "\x7d"

def pyReprList : List JVal → String
  | [] => ""
  | [x] => pyRepr x
  | x :: rest => pyRepr x ++ ", " ++ pyReprList rest

def pyReprObj : List (String × JVal) → String
  | [] => ""
  | [(k, v)] => String.mk [sqChar] ++ k ++ String.mk [sqChar] ++ ": " ++ pyRepr v
  | (k, v) :: rest =>
    String.mk [sqChar] ++ k ++ String.mk [sqChar] ++ ": " ++ pyRepr v ++ ", "
      ++ pyReprObj rest
end

/-- Python str() of a value, as used in f-string interpolation. -/
def pyStrVal : JVal → String
  | jstr s => s
  | v => pyRepr v

def hexDigit (n : Nat) : Char :=
  if n < 10 then Char.ofNat (48 + n) else Char.ofNat (87 + n)

def uHex4 (n : Nat) : String :=
  String.mk [hexDigit (n / 4096 % 16), hexDigit (n / 256 % 16),
             hexDigit (n / 16 % 16), hexDigit (n % 16)]

/-- json.dumps escaping of one character (ensure_ascii). -/
def dumpsEscChar (c : Char) : String :=
  if c == '"' then "\\\""
  else if c == '\\' then "\\\\"
  else if c == '\n' then "\\n"
  else if c == '\t' then "\\t"
  else if c == '\r' then "\\r"
  else if c == '\x08' then "\\b"
  else if c == '\x0c' then "\\f"
  else if c.toNat < 32 then "\\u" ++ uHex4 c.toNat
  else if c.toNat > 126 then
    if c.toNat < 65536 then "\\u" ++ uHex4 c.toNat
    else
      let v := c.toNat - 65536
      "\\u" ++ uHex4 (55296 + v / 1024) ++ "\\u" ++ uHex4 (56320 + v % 1024)
  else String.mk [c]

def dumpsStr (s : String) : String :=
  "\"" ++ String.join (s.toList.map dumpsEscChar) ++ "\""

def spaces (n : Nat) : String := String.mk (List.replicate n ' ')

mutual
/-- json.dumps(v, indent=2) at nesting level `lvl`. -/
def pyDumps (lvl : Nat) (v : JVal) : String :=
  match v with
  | jnull => "null"
  | jbool b => if b then "true" else "false"
  | jnum q => ratDecStr q
  | jspecial s =>
    if s == "nan" then "NaN" else if s == "inf" then "Infinity" else "-Infinity"
  | jstr s => dumpsStr s
  | jarr [] => "[]"
  | jarr (x :: xs) =>
    "[\n" ++ spaces (2 * lvl + 2) ++ pyDumpsItems (lvl + 1) x xs ++ "\n"
      ++ spaces (2 * lvl) ++ "]"
  | jobj [] => "\x7b\x7d"
  | jobj ((k, v) :: kvs) =>
    "\x7b\n" ++ spaces (2 * lvl + 2) ++ pyDumpsMembers (lvl + 1) k v kvs
      ++ "\n" ++ spaces (2 * lvl) ++ "\x7d"
termination_by sizeOf v
decreasing_by all_goals (simp; try omega)

def pyDumpsItems (lvl : Nat) (x : JVal) (xs : List JVal) : String :=
  match xs with
  | [] => pyDumps lvl x
  | y :: rest =>
    pyDumps lvl x ++ ",\n" ++ spaces (2 * lvl) ++ pyDumpsItems lvl y rest
termination_by sizeOf x + sizeOf xs
decreasing_by all_goals (simp; try omega)

def pyDumpsMembers (lvl : Nat) (k : String) (v : JVal)
    (kvs : List (String × JVal)) : String :=
  match kvs with
  | [] => dumpsStr k ++ ": " ++ pyDumps lvl v
  | (k2, v2) :: rest =>
    dumpsStr k ++ ": " ++ pyDumps lvl v ++ ",\n" ++ spaces (2 * lvl)
      ++ pyDumpsMembers lvl k2 v2 rest
termination_by sizeOf v + sizeOf kvs
decreasing_by all_goals (simp; try omega)
end

/- ── format_ground_truth (lines 305-318) ─────────────────────────────── -/

def noActionText : String :=
  "No actions required — the agent should have refused the request or correctly identified it as out of scope."

def formatGtLoop (i : Nat) : List JVal → Except PyErr (List String)
  | [] => .ok []
  | a :: rest => do
    let name ← pyGetD a "name" (jstr "unknown")
    let kwargsDefault ← pyGetD a "arguments" (jobj [])
    let kwargs ← pyGetD a "kwargs" kwargsDefault
    let line := toString i ++ ". " ++ pyStrVal name ++ "("
      ++ pyDumps 0 kwargs ++ ")"
    let tail ← formatGtLoop (i + 1) rest
    pure (line :: tail)

/-- format_ground_truth: canned sentence for an empty list, otherwise a
numbered list of name(json.dumps(kwargs, indent=2)). -/
def formatGroundTruth (actions : JVal) : Except PyErr String :=
  if !actions.truthy then .ok noActionText
  else do
    let acts ← pyIter actions
    let lines ← formatGtLoop 1 acts
    pure (String.intercalate "\n" lines)

/- ── format_conversation (lines 267-302) ─────────────────────────────── -/

/-- re.sub of the simulator think spans: leftmost match from each open
tag to the earliest close tag, plus trailing whitespace, removed; the
scan resumes after the removed span. -/
def thinkSubGo : Nat → List Char → List Char
  | 0, cs => cs
  | fuel + 1, cs =>
    match subIdx "<think>".toList cs with
    | none => cs
    | some i =>
      let afterOpen := cs.drop (i + 7)
      match subIdx "</think>".toList afterOpen with
      | none => cs
      | some j =>
        let rest := (afterOpen.drop (j + 8)).dropWhile isReWs
        cs.take i ++ thinkSubGo fuel rest

def thinkSub (cs : List Char) : List Char := thinkSubGo (cs.length + 1) cs

def pyUpper (s : String) : String := s.map Char.toUpper

/-- One line of the tool-call rendering for FC-format messages. -/
def tcLine (tc : JVal) : Except PyErr String := do
  let fn ← pyGetD tc "function" (jobj [])
  let name ← pyGetD fn "name" jnull
  let args ← pyGetD fn "arguments" (jstr "\x7b\x7d")
  pure ("  [Tool Call] " ++ pyStrVal name ++ "(" ++ pyStrVal args ++ ")")

/-- One message of format_conversation: the optional rendered line. -/
def formatMsg (maxLen : Nat) (msg : JVal) : Except PyErr (Option String) := do
  let roleV ← pyGetD msg "role" (jstr "unknown")
  let roleU ← match roleV with
    | jstr s => pure (pyUpper s)
    | _ => Except.error (.attributeError "object has no attribute upper")
  let c0 ← pyGetD msg "content" (jstr "")
  let c1 := if c0.truthy then c0 else jstr ""
  let rawRole ← pyGetD msg "role" jnull
  let c2 ← if pyEq rawRole (jstr "user") then
      match c1 with
      | jstr s =>
        let s2 := if containsSub "<think>".toList s.toList then
            thinkSub s.toList
          else s.toList
        let s3 := if listStartsWith "API output:".toList s2
            && s2.length > maxLen then
            s2.take maxLen ++ " ... [truncated]".toList
          else s2
        pure (jstr (String.mk s3))
      | _ => Except.error (.typeError "argument is not iterable")
    else pure c1
  let tcs ← pyGetD msg "tool_calls" jnull
  let c3 ← if pyEq rawRole (jstr "assistant") && tcs.truthy then do
      let tl ← pyIter tcs
      let lines ← tl.mapM tcLine
      match c2 with
      | jstr s =>
        pure (jstr (String.mk (pyStrip
          (s ++ "\n" ++ String.intercalate "\n" lines).toList)))
      | v =>
        if v.truthy then
          Except.error (.typeError "can only concatenate str to str")
        else
          pure (jstr (String.mk (pyStrip
            ("\n" ++ String.intercalate "\n" lines).toList)))
    else pure c2
  match c3 with
  | jstr s =>
    let st := pyStrip s.toList
    if st.isEmpty then pure none
    else pure (some ("[" ++ roleU ++ "]: " ++ String.mk st))
  | v =>
    if v.truthy then
      Except.error (.attributeError "object has no attribute strip")
    else pure none

def formatConversation (maxLen : Nat) (msgs : List JVal) :
    Except PyErr String := do
  let lines ← msgs.mapM (formatMsg maxLen)
  pure (String.intercalate "\n\n" (lines.filterMap id))

/- ── build_prompt (lines 332-385) ────────────────────────────────────── -/

/-- extract_policy applied to whatever content the system message holds:
strings take the normal path; a non-string raises where Python would
(`in` on null/number, `.split` on a list, dict slicing), and a list falls
through to the [:3000] slice. -/
def extractPolicyJ (v : JVal) : Except PyErr JVal :=
  match v with
  | jstr s => .ok (jstr (String.mk (extractPolicy s.toList)))
  | other => do
    let hits ← policyMarkers.mapM (fun m => pyIn (String.mk m) other)
    if hits.any id then .error (.attributeError "object has no attribute split")
    else
      match other with
      | jarr xs => .ok (jarr (xs.take 3000))
      | _ => .error (.typeError "object is not subscriptable by a slice")

/-- Python `seq[0]`. -/
def pyFirst (v : JVal) : Except PyErr JVal :=
  match v with
  | jarr (x :: _) => .ok x
  | jarr [] => .error (.keyError "list index out of range")
  | jstr s =>
    match s.toList with
    | c :: _ => .ok (jstr (String.mk [c]))
    | [] => .error (.keyError "string index out of range")
  | jobj _ => .error (.keyError "0")
  | _ => .error (.typeError "object is not subscriptable")

def taxonomyText : String :=
  String.intercalate "\n"
    (errTaxonomy.map (fun kv => "  - " ++ kv.1 ++ ": " ++ kv.2))

def promptHeader : String :=
  "You are an expert evaluator analyzing a FAILED AI agent interaction from the tau-bench benchmark.\n\nThe agent was supposed to help a simulated user with a customer service task but FAILED (reward = 0).\nYour job: figure out WHY it failed by comparing what the agent did vs what it should have done.\n\n## User's Goal\n"

def promptJsonLine : String :=
  "\x7b\"primary_category\": \"<category_id>\", \"sub_category\": \"<brief specific sub-type>\", \"explanation\": \"<1-2 sentence explanation>\"\x7d"

/-- build_prompt: instruction, ground truth, policy, conversation and
taxonomy rendered into the fixed f-string template of the source. -/
def buildPrompt (failure : JVal) : Except PyErr String := do
  let traj ← pyGetD failure "traj" (jarr [])
  let info ← pyGetD failure "info" (jobj [])
  let task ← pyGetD info "task" (jobj [])
  let policy ← if traj.truthy then do
      let m0 ← pyFirst traj
      let r0 ← pyGetD m0 "role" jnull
      if pyEq r0 (jstr "system") then do
        let c0 ← pyGetD m0 "content" (jstr "")
        extractPolicyJ c0
      else pure (jstr "No policy available")
    else pure (jstr "No policy available")
  let actions ← pyGetD task "actions" (jarr [])
  let gtText ← formatGroundTruth actions
  let trajList ← pyIter traj
  let convMsgs ← trajList.filterMapM (fun m => do
    let r ← pyGetD m "role" jnull
    pure (if pyEq r (jstr "system") then none else some m))
  let convText ← formatConversation 500 convMsgs
  let instr ← pyGetD task "instruction" (jstr "No instruction available")
  pure (promptHeader ++ pyStrVal instr
    ++ "\n\n## Expected Solution (Ground Truth)\nThese are the correct actions the agent should have taken:\n"
    ++ gtText
    ++ "\n\n## Domain Policy (Rules the Agent Must Follow)\n"
    ++ pyStrVal policy
    ++ "\n\n## Actual Conversation\n"
    ++ convText
    ++ "\n\n## Error Taxonomy\nClassify this failure into EXACTLY ONE of these categories:\n"
    ++ taxonomyText
    ++ "\n\nRespond with ONLY valid JSON, nothing else:\n"
    ++ promptJsonLine)

/- ── extract_agent_actions (lines 225-264) ───────────────────────────── -/

/-- The greedy group of the pattern Action:\s*(\{.*\}): from the brace
after the whitespace to the last closing brace of the rest of the text. -/
def actionAttempt (cs : List Char) : Option (List Char) :=
  match cs.dropWhile isReWs with
  | '{' :: rest =>
    let tailBraces := rest.reverse.takeWhile (fun c => c != '}')
    if tailBraces.length == rest.length then none
    else some ('{' :: rest.take (rest.length - tailBraces.length))
  | _ => none

def findAction : List Char → Option (List Char)
  | [] => none
  | c :: rest =>
    match (if listStartsWith "Action:".toList (c :: rest) then
             actionAttempt ((c :: rest).drop 7)
           else none) with
    | some g => some g
    | none => findAction rest

/-- One structured tool call of the FC branch: the appended action dict,
or none for names filtered out ("respond"/"unknown", including a missing
name defaulting to "unknown"). -/
def tcAction (tc : JVal) : Except PyErr (Option JVal) := do
  let fn ← pyGetD tc "function" (jobj [])
  let rawArgs ← pyGetD fn "arguments" (jstr "\x7b\x7d")
  let args := match rawArgs with
    | jstr s => (jsonLoads s.toList).getD rawArgs
    | _ => rawArgs
  let name ← pyGetD fn "name" (jstr "unknown")
  if pyEq name (jstr "respond") || pyEq name (jstr "unknown") then
    pure none
  else
    pure (some (jobj [("name", name), ("arguments", args)]))

def isNullJ : JVal → Bool
  | jnull => true
  | _ => false

/-- action.get("name") as evaluated on the parsed Action object. -/
def nameOf (a : JVal) : JVal :=
  match a with
  | jobj kvs => (jLookup kvs "name").getD jnull
  | _ => jnull

/-- The ACT/ReAct content branch: regex-extract the Action object, parse
it, and keep it unless its name is "respond" or missing. -/
def contentAction (cs : List Char) : Option JVal :=
  match findAction cs with
  | none => none
  | some g =>
    match jsonLoads g with
    | none => none
    | some a =>
      if pyEq (nameOf a) (jstr "respond") || isNullJ (nameOf a) then none
      else some a

/-- The per-message loop over structured tool calls, appending the kept
action dicts in order. -/
def tcActionsGo : List JVal → Except PyErr (List JVal)
  | [] => .ok []
  | tc :: rest => do
    let o ← tcAction tc
    let t ← tcActionsGo rest
    pure (match o with | some a => a :: t | none => t)

def extractAgentActionsGo : List JVal → Except PyErr (List JVal)
  | [] => .ok []
  | m :: rest => do
    let role ← pyGetD m "role" jnull
    if !pyEq role (jstr "assistant") then extractAgentActionsGo rest
    else do
      let tcs ← pyGetD m "tool_calls" jnull
      if tcs.truthy then do
        let acts ← do
          let tl ← pyIter tcs
          tcActionsGo tl
        let tail ← extractAgentActionsGo rest
        pure (acts ++ tail)
      else do
        let c0 ← pyGetD m "content" (jstr "")
        let c1 := if c0.truthy then c0 else jstr ""
        match c1 with
        | jstr s =>
          let tail ← extractAgentActionsGo rest
          pure (match contentAction s.toList with
            | some a => a :: tail
            | none => tail)
        | _ => .error (.typeError "expected string or bytes-like object")

/-- extract_agent_actions over the traj value. -/
def extractAgentActions (traj : JVal) : Except PyErr (List JVal) := do
  let msgs ← pyIter traj
  extractAgentActionsGo msgs

/- ── classify_one (lines 485-512) ────────────────────────────────────── -/

def pyErrStr : PyErr → String
  | .typeError m => m
  | .keyError m => m
  | .attributeError m => m
  | .valueError m => m

def takeStr (n : Nat) (s : String) : String := String.mk (s.toList.take n)

def apiErrorVerdict (msg : String) : JVal :=
  jobj [("primary_category", jstr "api_error"),
        ("sub_category", jstr "none"),
        ("explanation", jstr ("API failed after retry: " ++ takeStr 200 msg))]

/-- One attempt of the try block of classify_one: call, parse, validate.
Any of the three can fail; Python catches every exception alike. -/
def attemptOnce (resp : Except String String) : Except String JVal :=
  match resp with
  | .error e => .error e
  | .ok text =>
    match parseResponse text.toList with
    | .error pe => .error (pyErrStr pe)
    | .ok r =>
      match validateCategory r with
      | .error pe => .error (pyErrStr pe)
      | .ok v => .ok v

/-- Events observable from classify_one: external calls (by global call
index) and sleeps (seconds). -/
inductive REvent where
  | call : Nat → REvent
  | sleepEv : Rat → REvent
deriving DecidableEq, Repr

/-- classify_one over the oracle: build the prompt (outside the
try/except — its exceptions propagate), then attempt the call at most
twice, sleeping the back-off of 2 seconds between the attempts and the
rate-limit delay after a successful one; a second failure is recorded as
an api_error verdict.  Returns the verdict, the next free call index and
the event trace. -/
def classifyOneTr (oracle : Nat → Except String String) (idx : Nat)
    (failure : JVal) (delay : Rat) :
    Except PyErr (JVal × Nat × List REvent) := do
  let _prompt ← buildPrompt failure
  match attemptOnce (oracle idx) with
  | .ok v => .ok (v, idx + 1, [.call idx, .sleepEv delay])
  | .error _ =>
    match attemptOnce (oracle (idx + 1)) with
    | .ok v => .ok (v, idx + 2,
        [.call idx, .sleepEv 2, .call (idx + 1), .sleepEv delay])
    | .error e2 => .ok (apiErrorVerdict e2, idx + 2,
        [.call idx, .sleepEv 2, .call (idx + 1)])

/- ── compute_summary (lines 520-535) ─────────────────────────────────── -/

/-- defaultdict(int) increment with Python == key identification. -/
def bumpCount (counts : List (JVal × Nat)) (cat : JVal) : List (JVal × Nat) :=
  match counts with
  | [] => [(cat, 1)]
  | (k, n) :: rest =>
    if pyEq k cat then (k, n + 1) :: rest else (k, n) :: bumpCount rest cat

def summaryCounts : List JVal → List (JVal × Nat) →
    Except PyErr (List (JVal × Nat))
  | [], acc => .ok acc
  | c :: rest, acc => do
    let cl ← pyIndex c "classification"
    let cat ← pyIndex cl "primary_category"
    if !hashable cat then .error (.typeError "unhashable type")
    else summaryCounts rest (bumpCount acc cat)

/-- Stable insertion for the sort by descending count. -/
def insDesc (k : JVal) (n : Nat) : List (JVal × Nat) → List (JVal × Nat)
  | [] => [(k, n)]
  | (k2, n2) :: rest =>
    if n2 < n then (k, n) :: (k2, n2) :: rest else (k2, n2) :: insDesc k n rest

/-- round(x, 1) with the half-even rule, on exact rationals (Python rounds
the nearest float; the claims below only evaluate it away from ties). -/
def roundHalfEven (x : Rat) : Int :=
  let f := x.floor
  let r := x - f
  if r < 1 / 2 then f
  else if 1 / 2 < r then f + 1
  else if f % 2 = 0 then f else f + 1

def pyRound1 (q : Rat) : Rat := (roundHalfEven (q * 10) : Rat) / 10

/-- compute_summary: per-category counts with percentages, sorted by
descending count.  Category keys are strings in every run the scripts can
produce; a non-string category key cannot be a key of the JSON summary
object and is modelled as an error. -/
def computeSummary (cls : List JVal) : Except PyErr JVal := do
  let counts ← summaryCounts cls []
  let total := cls.length
  let sortedC := counts.foldl (fun acc kn => insDesc kn.1 kn.2 acc) []
  let entries ← sortedC.mapM (fun kn =>
    match kn.1 with
    | jstr s => Except.ok (s, jobj [("count", jnum kn.2),
        ("percentage",
         if total > 0 then jnum (pyRound1 ((100 * kn.2 : Rat) / total))
         else jnum 0)])
    | _ => Except.error (.typeError "model: non-string category key"))
  pure (jobj entries)

/- ── process_file (lines 538-640) ────────────────────────────────────── -/

/-- The command-line options that reach process_file.  The seed option is
parsed by the CLI but — exactly as in the source — never passed on. -/
structure CliArgs where
  provider : String
  modelName : String
  sampleSize : Nat
  delay : Rat
  force : Bool
  dryRun : Bool
  seed : Nat

/-- The two files process_file owns: the final result and the resume
checkpoint (the .partial.json sidecar). -/
structure FS where
  result : Option JVal
  ckpt : Option JVal

/-- Outcome of process_file: the returned value, the final file state and
the number of external calls made, or the dry-run exit. -/
inductive RunOut where
  | done : Option JVal → FS → Nat → RunOut
  | exit0 : RunOut

/-- The classification loop of process_file, from the resume point on:
entries with a falsy info.task are skipped; each classified entry appends
one record and rewrites the checkpoint.  Returns the classification list,
the number of calls, and the last checkpoint written. -/
def classifyLoopRun (oracle : Nat → Except String String) (delay : Rat) :
    List JVal → List JVal → Nat → Option JVal →
    Except PyErr (List JVal × Nat × Option JVal)
  | [], acc, idx, ck => .ok (acc, idx, ck)
  | f :: rest, acc, idx, ck => do
    let info ← pyGetD f "info" (jobj [])
    let task ← pyGetD info "task" jnull
    if !task.truthy then classifyLoopRun oracle delay rest acc idx ck
    else do
      let r ← classifyOneTr oracle idx f delay
      let tid ← pyIndex f "task_id"
      let trial ← pyGetD f "trial" (jnum 0)
      let instr ← pyGetD task "instruction" (jstr "")
      let gta ← pyGetD task "actions" (jarr [])
      let trajV ← pyGetD f "traj" (jarr [])
      let aacts ← extractAgentActions trajV
      let record := jobj [("task_id", tid), ("trial", trial),
        ("instruction", instr), ("ground_truth_actions", gta),
        ("agent_actions", jarr aacts), ("classification", r.1)]
      let acc2 := acc ++ [record]
      classifyLoopRun oracle delay rest acc2 r.2.1
        (some (jobj [("classifications", jarr acc2)]))

/-- Count of Python-distinct values. -/
def distinctCount : List JVal → Nat :=
  let rec go : List JVal → List JVal → Nat
    | [], _ => 0
    | x :: rest, seen =>
      if seen.any (fun y => pyEq y x) then go rest seen
      else 1 + go rest (x :: seen)
  fun l => go l []

/-- len(set(e["task_id"] for e in data)). -/
def totalTasksOf (data : List JVal) : Except PyErr Nat := do
  let tids ← data.mapM (fun e => pyIndex e "task_id")
  if tids.all hashable then .ok (distinctCount tids)
  else .error (.typeError "unhashable type")

/-- sum(1 for e in data if e.get("reward", 1) == 0.0). -/
def totalFailuresOf (data : List JVal) : Except PyErr Nat := do
  let flags ← data.mapM (fun e => do
    let r ← pyGetD e "reward" (jnum 1)
    pure (pyEq r (jnum 0)))
  pure (flags.count true)

/-- process_file: short-circuit on an existing result unless forced;
sample (with the default seed 42 — the CLI seed option is not threaded
through); dry-run prints one prompt and exits; otherwise resume from the
checkpoint when one exists, classify the remaining entries, and write the
final result, deleting the checkpoint. -/
def processFile (args : CliArgs) (configName fileName : String)
    (fileData : JVal) (fs : FS) (oracle : Nat → Except String String) :
    Except PyErr RunOut :=
  match fs.result, args.force with
  | some r, false => .ok (.done (some r) fs 0)
  | _, _ => do
    let fsamp ← loadAndSampleFile fileData args.sampleSize 42
    let data ← pyIter fileData
    let totalTasks ← totalTasksOf data
    let failures := fsamp.1
    if failures.isEmpty then .ok (.done none fs 0)
    else if args.dryRun then
      match failures with
      | f :: _ => do
        let _ ← buildPrompt f
        .ok .exit0
      | [] => .ok .exit0
    else do
      let acc0 ←
        match fs.ckpt, args.force with
        | some ckv, false => do
          let clsv ← pyGetD ckv "classifications" (jarr [])
          match clsv with
          | jarr l => Except.ok l
          | _ =>
            Except.error (.typeError "model: checkpoint classifications is not a list")
        | _, _ => Except.ok ([] : List JVal)
      let lr ← classifyLoopRun oracle args.delay (failures.drop acc0.length)
        acc0 0 fs.ckpt
      let cls := lr.1
      let summary ← computeSummary cls
      let totalFailures ← totalFailuresOf data
      let res := jobj [("config", jstr configName), ("file", jstr fileName),
        ("stats", jobj [("total_tasks", jnum totalTasks),
          ("total_failures_in_file", jnum totalFailures),
          ("unique_failures_sampled", jnum failures.length)]),
        ("summary", summary), ("classifications", jarr cls)]
      .ok (.done (some res) ⟨some res, none⟩ lr.2.1)

/- ════════════════════════════ CLAIMS ═══════════════════════════════════ -/

/- ── concrete inputs shared by the claims below ──────────────────────── -/

def goodTask : JVal :=
  jobj [("instruction", jstr "I"), ("actions", jarr [])]

def userMsg : JVal := jobj [("role", jstr "user"), ("content", jstr "hi")]

/-- A well-formed zero-reward failure entry. -/
def goodEntry (tid : Nat) : JVal :=
  jobj [("task_id", jnum tid), ("trial", jnum 0), ("reward", jnum 0),
        ("info", jobj [("task", goodTask)]), ("traj", jarr [userMsg])]

def flatVerdictResp : String :=
  "\x7b\"primary_category\": \"wrong_tool\", \"sub_category\": \"s\", \"explanation\": \"e\"\x7d"

def okOracle : Nat → Except String String := fun _ => .ok flatVerdictResp

/- ── C3: idempotence of a completed run ──────────────────────────────── -/

/-- Claim C3 (confirmed): when the final result file already exists and
force is off, process_file returns exactly the stored result, leaves both
files untouched, and performs zero external classification calls — for
any arguments, file contents, checkpoint state and oracle. -/
theorem C3_completed_run_short_circuits
    (args : CliArgs) (cn fn : String) (fileData : JVal) (fs : FS)
    (oracle : Nat → Except String String) (r : JVal)
    (hres : fs.result = some r) (hforce : args.force = false) :
    processFile args cn fn fileData fs oracle = .ok (.done (some r) fs 0) := by
  unfold processFile
  rw [hres, hforce]

/-- Witness for C3 at a concrete stored result. -/
theorem C3_completed_run_short_circuits_witness :
    processFile ⟨"anthropic", "m", 50, 1/2, false, false, 42⟩ "cfg" "f"
      (jarr [goodEntry 1]) ⟨some (jstr "stored"), none⟩ okOracle
      = .ok (.done (some (jstr "stored")) ⟨some (jstr "stored"), none⟩ 0) :=
  C3_completed_run_short_circuits _ _ _ _ _ _ _ rfl rfl

/- ── C10: classify_crash shape ───────────────────────────────────────── -/

/-- Claim C10 (confirmed): classify_crash is total on error strings;
its crash_type is exactly one of context_window / api_timeout / other;
token counts are present only for context_window; and an error string
containing both ContextWindowExceeded and Timeout is classified as
context_window. -/
theorem C10_classify_crash_shape (e : String) :
    ((classifyCrash e).crashType = "context_window"
      ∨ (classifyCrash e).crashType = "api_timeout"
      ∨ (classifyCrash e).crashType = "other")
    ∧ ((classifyCrash e).tokensUsed ≠ none ∨ (classifyCrash e).tokenLimit ≠ none
        → (classifyCrash e).crashType = "context_window")
    ∧ (containsSub "ContextWindowExceeded".toList e.toList = true
        → containsSub "Timeout".toList e.toList = true
        → (classifyCrash e).crashType = "context_window") := by
  simp only [classifyCrash]
  split
  · exact ⟨Or.inl rfl, fun _ => rfl, fun _ _ => rfl⟩
  · split
    · refine ⟨Or.inr (Or.inl rfl), ?_, ?_⟩
      · rintro (h | h) <;> simp at h
      · intro hc _
        simp_all
    · refine ⟨Or.inr (Or.inr rfl), ?_, ?_⟩
      · rintro (h | h) <;> simp at h
      · intro hc _
        simp_all

/-- Witness for C10 on a string containing both markers. -/
theorem C10_classify_crash_shape_witness :
    (classifyCrash "ContextWindowExceeded after Timeout").crashType
      = "context_window" :=
  (C10_classify_crash_shape "ContextWindowExceeded after Timeout").2.2
    (by decide) (by decide)

/- ── C2: the seed option is parsed but never used ────────────────────── -/

def c2File : JVal := jarr [goodEntry 10, goodEntry 20, goodEntry 30]

/-- Claim C2 (code bug): process_file calls load_and_sample without
passing the seed, so its result is invariant under the CLI seed option —
while load_and_sample itself is genuinely seed-dependent: on a file with
three unique failures and sample size 2, seeds 7 and 42 draw different
samples.  So the sample drawn is never the one determined by the
caller-supplied seed (it is always the seed-42 sample). -/
theorem C2_seed_option_never_reaches_sampler :
    (∀ (a : CliArgs) (s : Nat) (cn fn : String) (fd : JVal) (fs : FS)
        (oracle : Nat → Except String String),
        processFile { a with seed := s } cn fn fd fs oracle
          = processFile a cn fn fd fs oracle)
    ∧ loadAndSampleFile c2File 2 7 = .ok ([goodEntry 20, goodEntry 10], 3)
    ∧ loadAndSampleFile c2File 2 42 = .ok ([goodEntry 30, goodEntry 10], 3)
    ∧ loadAndSampleFile c2File 2 7 ≠ loadAndSampleFile c2File 2 42 := by
  have h7 : loadAndSampleFile c2File 2 7
      = .ok ([goodEntry 20, goodEntry 10], 3) := by rfl
  have h42 : loadAndSampleFile c2File 2 42
      = .ok ([goodEntry 30, goodEntry 10], 3) := by rfl
  refine ⟨fun a s cn fn fd fs oracle => by cases a; rfl, h7, h42, ?_⟩
  rw [h7, h42]
  intro h
  simp [goodEntry] at h

/- ── C8: the end-to-end example of the spec ──────────────────────────── -/

def c8err : String :=
  "ContextWindowExceeded: your request has 9000 input tokens, maximum context length is 8192 tokens"

def c8e2 : JVal :=
  jobj [("task_id", jnum 2), ("trial", jnum 0), ("reward", jnum 1),
        ("info", jobj [("task", goodTask)]), ("traj", jarr [userMsg])]

def c8e3 : JVal :=
  jobj [("task_id", jnum 3), ("trial", jnum 0), ("reward", jnum 0),
        ("info", jobj [("error", jstr c8err)]), ("traj", jarr [])]

def c8File : List JVal := [goodEntry 1, c8e2, c8e3]

/-- Claim C8 (confirmed): on the three-entry example file, the sampler
selects exactly task 1 (task 3, the crashed entry, is excluded); the
crash analyzer classifies task 3 as a context_window crash with
tokens_used 9000 and token_limit 8192; and the saved crash entry carries
over_by 808. -/
theorem C8_end_to_end_example :
    loadAndSampleFile (jarr c8File) 50 42 = .ok ([goodEntry 1], 3)
    ∧ ([goodEntry 1].all (fun e => !pyEq e c8e3)) = true
    ∧ classifyCrash c8err
        = ⟨"context_window", some 9000, some 8192,
           "Context window exceeded (9000/8192 tokens)"⟩
    ∧ scanFileCrashes "14B_ACT_airline" c8File
        = .ok [crashRecord (classifyCrash c8err) (jnum 3) (jnum 0)
                 "14B_ACT_airline"]
    ∧ saveJsonCrashEntry "14B_ACT_airline" (jnum 3) (jnum 0)
        (classifyCrash c8err)
        = .ok (jobj [("config", jstr "14B_ACT_airline"),
            ("task_id", jnum 3), ("trial", jnum 0),
            ("crash_type", jstr "context_window"),
            ("error_short", jstr "Context window exceeded (9000/8192 tokens)"),
            ("tokens_used", jnum 9000), ("token_limit", jnum 8192),
            ("over_by", jnum 808)]) := by
  have hc : classifyCrash c8err
      = ⟨"context_window", some 9000, some 8192,
         "Context window exceeded (9000/8192 tokens)"⟩ := by rfl
  refine ⟨by rfl, by rfl, hc, by rfl, ?_⟩
  rw [hc]
  simp only [saveJsonCrashEntry]
  norm_num

/- ── C7: extract_policy marker semantics ─────────────────────────────── -/

theorem containsSub_eq_isSome (pat cs : List Char) :
    containsSub pat cs = (subIdx pat cs).isSome := by
  induction cs with
  | nil => simp only [containsSub, subIdx]; split <;> simp_all
  | cons c rest ih =>
    simp only [containsSub, subIdx]
    by_cases h : listStartsWith pat (c :: rest) = true <;> simp [h, ih]

/-- Claim C7 (corrected, amended): extract_policy checks the three exact
markers "#Available tools", "# Available tools", "#Available Tools" in
that order (not a case-insensitive, optionally hash-prefixed family); for
the first marker of the list present in the text it returns the portion
before that marker's first occurrence, stripped of surrounding
whitespace; when none occurs it returns the first 3000 characters. -/
theorem C7_extract_policy_cut (cs : List Char) :
    (∀ i, subIdx marker1 cs = some i →
      extractPolicy cs = pyStrip (cs.take i))
    ∧ (containsSub marker1 cs = false →
      ∀ i, subIdx marker2 cs = some i →
      extractPolicy cs = pyStrip (cs.take i))
    ∧ (containsSub marker1 cs = false →
      containsSub marker2 cs = false →
      ∀ i, subIdx marker3 cs = some i →
      extractPolicy cs = pyStrip (cs.take i))
    ∧ (containsSub marker1 cs = false →
      containsSub marker2 cs = false →
      containsSub marker3 cs = false →
      extractPolicy cs = cs.take 3000) := by
  refine ⟨?_, ?_, ?_, ?_⟩
  · intro i hi
    have hc : containsSub marker1 cs = true := by
      rw [containsSub_eq_isSome, hi]; rfl
    simp [extractPolicy, extractPolicyLoop, policyMarkers, hc, splitHead, hi]
  · intro h1 i hi
    have hc : containsSub marker2 cs = true := by
      rw [containsSub_eq_isSome, hi]; rfl
    simp [extractPolicy, extractPolicyLoop, policyMarkers, h1, hc,
      splitHead, hi]
  · intro h1 h2 i hi
    have hc : containsSub marker3 cs = true := by
      rw [containsSub_eq_isSome, hi]; rfl
    simp [extractPolicy, extractPolicyLoop, policyMarkers, h1, h2, hc,
      splitHead, hi]
  · intro h1 h2 h3
    simp [extractPolicy, extractPolicyLoop, policyMarkers, h1, h2, h3]

/-- Counterexample to C7 as stated: a hash-less "Available tools" marker
(which the claimed case-insensitive, optionally hash-prefixed rule would
cut at) is not cut — the whole text is returned. -/
theorem C7_extract_policy_cut_counterexample :
    extractPolicy "Rules. Available tools: none".toList
        = "Rules. Available tools: none".toList
    ∧ extractPolicy "Rules. Available tools: none".toList
        ≠ "Rules.".toList := by
  exact ⟨by rfl, by decide⟩

/-- Witness for C7: the second marker variant, cut at its occurrence. -/
theorem C7_extract_policy_cut_witness :
    extractPolicy "pol \n# Available tools X".toList
      = pyStrip ("pol \n# Available tools X".toList.take 5) :=
  (C7_extract_policy_cut "pol \n# Available tools X".toList).2.1
    (by rfl) 5 (by rfl)

/- ── C6: error containment in classify_one ───────────────────────────── -/

/-- Claim C6 (corrected, amended): provided build_prompt succeeds on the
failure case, classify_one contains every error: a first-attempt failure
is retried exactly once after the fixed 2-second back-off, a second
failure returns the api_error verdict carrying the truncated exception
message, and classify_one always returns a verdict (never raises).
build_prompt itself runs outside the try/except, so its exceptions are
not contained (see the counterexample). -/
theorem C6_classify_one_contains_errors
    (oracle : Nat → Except String String) (idx : Nat) (failure : JVal)
    (delay : Rat) (hbp : ∃ p, buildPrompt failure = .ok p) :
    (∀ e0 e1, oracle idx = .error e0 → oracle (idx + 1) = .error e1 →
      classifyOneTr oracle idx failure delay
        = .ok (apiErrorVerdict e1, idx + 2,
            [.call idx, .sleepEv 2, .call (idx + 1)]))
    ∧ ∃ out, classifyOneTr oracle idx failure delay = .ok out := by
  obtain ⟨p, hp⟩ := hbp
  constructor
  · intro e0 e1 h0 h1
    simp [classifyOneTr, hp, attemptOnce, h0, h1, bind, Except.bind]
  · match h0 : attemptOnce (oracle idx) with
    | .ok v =>
      refine ⟨(v, idx + 1, [.call idx, .sleepEv delay]), ?_⟩
      simp [classifyOneTr, hp, h0, bind, Except.bind]
    | .error e =>
      match h1 : attemptOnce (oracle (idx + 1)) with
      | .ok v =>
        refine ⟨(v, idx + 2,
          [.call idx, .sleepEv 2, .call (idx + 1), .sleepEv delay]), ?_⟩
        simp [classifyOneTr, hp, h0, h1, bind, Except.bind]
      | .error e2 =>
        refine ⟨(apiErrorVerdict e2, idx + 2,
          [.call idx, .sleepEv 2, .call (idx + 1)]), ?_⟩
        simp [classifyOneTr, hp, h0, h1, bind, Except.bind]

def c6bad : JVal :=
  jobj [("task_id", jnum 7), ("reward", jnum 0),
        ("info", jobj [("task", goodTask)]), ("traj", jarr [jstr "x"])]

/-- Counterexample to C6 as stated: a failure entry whose traj holds a
bare string makes build_prompt call .get on a non-dict; the
AttributeError propagates out of classify_one, before any retry. -/
theorem C6_classify_one_contains_errors_counterexample :
    classifyOneTr (fun _ => .error "transport down") 0 c6bad (1 / 2)
      = .error (.attributeError "object has no attribute get") := by rfl

/-- Witness for C6: a well-formed failure whose two call attempts both
fail is recorded as api_error after exactly one retry. -/
theorem C6_classify_one_contains_errors_witness :
    classifyOneTr (fun _ => .error "boom") 0 (goodEntry 4) (1 / 2)
      = .ok (apiErrorVerdict "boom", 2, [.call 0, .sleepEv 2, .call 1]) :=
  (C6_classify_one_contains_errors (fun _ => .error "boom") 0 (goodEntry 4)
    (1 / 2) ⟨_, by rfl⟩).1 "boom" "boom" rfl rfl

/- ── C9: no "respond" pseudo-actions in agent_actions ────────────────── -/

theorem tcAction_some_not_respond (tc a : JVal)
    (h : tcAction tc = .ok (some a)) :
    pyEq (nameOf a) (jstr "respond") = false := by
  match h1 : pyGetD tc "function" (jobj []) with
  | .error e => simp [tcAction, h1, bind, Except.bind] at h
  | .ok fn =>
    match h2 : pyGetD fn "arguments" (jstr "\x7b\x7d") with
    | .error e => simp [tcAction, h1, h2, bind, Except.bind] at h
    | .ok rawArgs =>
      match h3 : pyGetD fn "name" (jstr "unknown") with
      | .error e => simp [tcAction, h1, h2, h3, bind, Except.bind] at h
      | .ok name =>
        simp only [tcAction, h1, h2, h3, bind, Except.bind, pure,
          Except.pure] at h
        by_cases hg :
            (pyEq name (jstr "respond") || pyEq name (jstr "unknown")) = true
        · simp [hg] at h
        · simp [hg] at h
          rw [← h]
          simp only [Bool.or_eq_true] at hg
          push_neg at hg
          simp [nameOf, jLookup, hg.1]

theorem contentAction_some_not_respond (cs : List Char) (a : JVal)
    (h : contentAction cs = some a) :
    pyEq (nameOf a) (jstr "respond") = false := by
  unfold contentAction at h
  match h1 : findAction cs with
  | none => simp [h1] at h
  | some g =>
    match h2 : jsonLoads g with
    | none => simp [h1, h2] at h
    | some v =>
      simp only [h1, h2] at h
      by_cases hg : (pyEq (nameOf v) (jstr "respond")
          || isNullJ (nameOf v)) = true
      · simp [hg] at h
      · simp [hg] at h
        simp only [Bool.or_eq_true] at hg
        push_neg at hg
        rw [← h]
        simp [hg.1]

theorem tcActionsGo_not_respond (tl l : List JVal)
    (h : tcActionsGo tl = .ok l) :
    ∀ a ∈ l, pyEq (nameOf a) (jstr "respond") = false := by
  induction tl generalizing l with
  | nil =>
    simp only [tcActionsGo] at h
    cases h
    intro a ha
    simp at ha
  | cons tc rest ih =>
    match h1 : tcAction tc with
    | .error e => simp [tcActionsGo, h1, bind, Except.bind] at h
    | .ok o =>
      match h2 : tcActionsGo rest with
      | .error e => simp [tcActionsGo, h1, h2, bind, Except.bind] at h
      | .ok t =>
        simp only [tcActionsGo, h1, h2, bind, Except.bind, pure,
          Except.pure, Except.ok.injEq] at h
        intro a ha
        match o, h with
        | some b, h =>
          rw [← h] at ha
          rcases List.mem_cons.mp ha with hb | hb
          · exact hb ▸ tcAction_some_not_respond tc b h1
          · exact ih t h2 a hb
        | none, h =>
          rw [← h] at ha
          exact ih t h2 a ha

theorem extractAgentActionsGo_not_respond (msgs : List JVal)
    (acts : List JVal) (h : extractAgentActionsGo msgs = .ok acts) :
    ∀ a ∈ acts, pyEq (nameOf a) (jstr "respond") = false := by
  induction msgs generalizing acts with
  | nil =>
    simp only [extractAgentActionsGo, Except.ok.injEq] at h
    subst h
    intro a ha
    simp at ha
  | cons m rest ih =>
    match h1 : pyGetD m "role" jnull with
    | .error e => simp [extractAgentActionsGo, h1, bind, Except.bind] at h
    | .ok role =>
    match hr : pyEq role (jstr "assistant") with
    | false =>
      simp only [extractAgentActionsGo, h1, bind, Except.bind, hr,
        Bool.not_false, if_true] at h
      exact ih acts h
    | true =>
    match h2 : pyGetD m "tool_calls" jnull with
    | .error e =>
      simp [extractAgentActionsGo, h1, h2, hr, bind, Except.bind] at h
    | .ok tcs =>
    match ht : tcs.truthy with
    | true =>
      match h3 : pyIter tcs with
      | .error e =>
        simp [extractAgentActionsGo, h1, h2, h3, hr, ht, bind,
          Except.bind] at h
      | .ok tl =>
      match h4 : tcActionsGo tl with
      | .error e =>
        simp [extractAgentActionsGo, h1, h2, h3, h4, hr, ht, bind,
          Except.bind] at h
      | .ok l =>
      match h5 : extractAgentActionsGo rest with
      | .error e =>
        simp [extractAgentActionsGo, h1, h2, h3, h4, h5, hr, ht, bind,
          Except.bind] at h
      | .ok tail =>
        simp only [extractAgentActionsGo, h1, h2, h3, h4, h5, hr, ht, bind,
          Except.bind, Bool.not_true, Bool.false_eq_true, if_false,
          reduceIte, pure, Except.pure, Except.ok.injEq] at h
        intro a ha
        rw [← h] at ha
        rcases List.mem_append.mp ha with hb | hb
        · exact tcActionsGo_not_respond tl l h4 a hb
        · exact ih tail h5 a hb
    | false =>
      match h6 : pyGetD m "content" (jstr "") with
      | .error e =>
        simp [extractAgentActionsGo, h1, h2, h6, hr, ht, bind,
          Except.bind] at h
      | .ok c0 =>
        simp only [extractAgentActionsGo, h1, h2, h6, hr, ht, bind,
          Except.bind, Bool.not_true, Bool.false_eq_true, if_false,
          reduceIte] at h
        match hc : (if c0.truthy = true then c0 else jstr "") with
        | jstr s =>
          rw [hc] at h
          match h7 : extractAgentActionsGo rest with
          | .error e => simp [h7, bind, Except.bind] at h
          | .ok tail =>
            simp only [h7, bind, Except.bind, pure, Except.pure,
              Except.ok.injEq] at h
            intro a ha
            rw [← h] at ha
            match h8 : contentAction s.toList with
            | some b =>
              rw [h8] at ha
              rcases List.mem_cons.mp ha with hb | hb
              · exact hb ▸ contentAction_some_not_respond s.toList b h8
              · exact ih tail h7 a hb
            | none =>
              rw [h8] at ha
              exact ih tail h7 a ha
        | jnull => rw [hc] at h; simp at h
        | jbool b => rw [hc] at h; simp at h
        | jnum q => rw [hc] at h; simp at h
        | jspecial s => rw [hc] at h; simp at h
        | jarr xs => rw [hc] at h; simp at h
        | jobj kvs => rw [hc] at h; simp at h

/-- Claim C9 (confirmed): no action in extract_agent_actions output is
named "respond": every returned action's name lookup differs from
"respond"; a structured tool call whose (defaulted) name is "respond" or
"unknown" contributes nothing; and a content-embedded Action object named
"respond" or without a name is dropped. -/
theorem C9_extract_agent_actions_no_respond :
    (∀ (traj : JVal) (acts : List JVal),
      extractAgentActions traj = .ok acts →
      ∀ a ∈ acts, pyEq (nameOf a) (jstr "respond") = false)
    ∧ (∀ tc fn name, pyGetD tc "function" (jobj []) = .ok fn →
      pyGetD fn "name" (jstr "unknown") = .ok name →
      (pyEq name (jstr "respond") || pyEq name (jstr "unknown")) = true →
      tcAction tc = .ok none)
    ∧ (∀ (cs : List Char) (g : List Char) (a : JVal),
      findAction cs = some g → jsonLoads g = some a →
      (pyEq (nameOf a) (jstr "respond") || isNullJ (nameOf a)) = true →
      contentAction cs = none) := by
  refine ⟨?_, ?_, ?_⟩
  · intro traj acts h a ha
    match h0 : pyIter traj with
    | .error e => simp [extractAgentActions, h0, bind, Except.bind] at h
    | .ok msgs =>
      simp only [extractAgentActions, h0, bind, Except.bind] at h
      exact extractAgentActionsGo_not_respond msgs acts h a ha
  · intro tc fn name h1 h2 h3
    match fn, h2 with
    | jobj kvs, h2 =>
      simp only [pyGetD, Except.ok.injEq] at h2
      simp only [tcAction, bind, Except.bind]
      rw [h1]
      simp only [pyGetD]
      rw [h2]
      simp [h3, pure, Except.pure]
  · intro cs g a h1 h2 h3
    simp [contentAction, h1, h2, h3]

def c9tcRespond : JVal :=
  jobj [("function",
    jobj [("name", jstr "respond"), ("arguments", jstr "\x7b\x7d")])]

def c9tcKeep : JVal :=
  jobj [("function",
    jobj [("name", jstr "get_user"), ("arguments", jstr "\x7b\x7d")])]

def c9traj : JVal :=
  jarr [jobj [("role", jstr "assistant"),
              ("tool_calls", jarr [c9tcRespond, c9tcKeep])]]

def c9kept : JVal := jobj [("name", jstr "get_user"), ("arguments", jobj [])]

/-- Witness for C9: a trajectory with a respond tool call and a real one
keeps only the real one, whose name is not respond. -/
theorem C9_extract_agent_actions_no_respond_witness :
    extractAgentActions c9traj = .ok [c9kept]
    ∧ pyEq (nameOf c9kept) (jstr "respond") = false :=
  ⟨by rfl,
   C9_extract_agent_actions_no_respond.1 c9traj [c9kept] (by rfl) c9kept
     (by simp)⟩

/- ── C4: selected failures satisfy the entry invariant ───────────────── -/

/-- The info member as the scripts read it (default empty dict). -/
def infoVal (e : JVal) : JVal :=
  match e with
  | jobj kvs => (jLookup kvs "info").getD (jobj [])
  | _ => jobj []

/-- The traj member as the scripts read it (default None). -/
def trajVal (e : JVal) : JVal :=
  match e with
  | jobj kvs => (jLookup kvs "traj").getD jnull
  | _ => jnull

def isObjJ : JVal → Bool
  | jobj _ => true
  | _ => false

/-- The data-model invariant of spec section 3, as a predicate on one
entry: exactly one of (info.task present and non-empty traj) or
(info.error present and empty traj) holds, emptiness read as Python
truthiness. -/
def specEntryInvariant (e : JVal) : Bool :=
  let completed := (match infoVal e with
    | jobj ikvs => (jLookup ikvs "task").isSome
    | _ => false) && (trajVal e).truthy
  let crashed := (match infoVal e with
    | jobj ikvs => (jLookup ikvs "error").isSome
    | _ => false) && !(trajVal e).truthy
  xor completed crashed

theorem filterFailures_mem (data fs : List JVal)
    (h : filterFailures data = .ok fs) :
    ∀ e ∈ fs, failCheck e = .ok true := by
  induction data generalizing fs with
  | nil =>
    simp only [filterFailures, Except.ok.injEq] at h
    subst h
    intro e he
    simp at he
  | cons d rest ih =>
    match h1 : failCheck d with
    | .error er => simp [filterFailures, h1, bind, Except.bind] at h
    | .ok b =>
      match h2 : filterFailures rest with
      | .error er => simp [filterFailures, h1, h2, bind, Except.bind] at h
      | .ok tail =>
        simp only [filterFailures, h1, h2, bind, Except.bind, pure,
          Except.pure, Except.ok.injEq] at h
        intro e he
        rw [← h] at he
        match b with
        | true =>
          simp only [if_true] at he
          rcases List.mem_cons.mp he with hb | hb
          · exact hb ▸ h1
          · exact ih tail h2 e hb
        | false =>
          simp only [Bool.false_eq_true, if_false] at he
          exact ih tail h2 e he

theorem seenUpdate_mem (seen : List (JVal × JVal)) (tid e : JVal)
    (kv : JVal × JVal) (h : kv ∈ seenUpdate seen tid e) :
    kv ∈ seen ∨ kv.2 = e := by
  induction seen with
  | nil =>
    simp only [seenUpdate, List.mem_singleton] at h
    exact Or.inr (by rw [h])
  | cons p rest ih =>
    match p, h with
    | (k, v), h =>
      simp only [seenUpdate] at h
      by_cases hk : pyEq k tid = true
      · rw [if_pos hk] at h
        rcases List.mem_cons.mp h with hb | hb
        · exact Or.inr (by rw [hb])
        · exact Or.inl (List.mem_cons_of_mem _ hb)
      · rw [if_neg hk] at h
        rcases List.mem_cons.mp h with hb | hb
        · exact Or.inl (hb ▸ List.mem_cons_self _ _)
        · rcases ih hb with hc | hc
          · exact Or.inl (List.mem_cons_of_mem _ hc)
          · exact Or.inr hc

theorem dedupLoop_mem (l : List JVal) (seen seen2 : List (JVal × JVal))
    (h : dedupLoop l seen = .ok seen2) :
    ∀ kv ∈ seen2, kv.2 ∈ l ∨ kv ∈ seen := by
  induction l generalizing seen with
  | nil =>
    simp only [dedupLoop, Except.ok.injEq] at h
    subst h
    exact fun kv hkv => Or.inr hkv
  | cons e rest ih =>
    match h1 : pyIndex e "task_id" with
    | .error er => simp [dedupLoop, h1, bind, Except.bind] at h
    | .ok tid =>
      match hh : hashable tid with
      | false => simp [dedupLoop, h1, hh, bind, Except.bind] at h
      | true =>
        simp only [dedupLoop, h1, hh, bind, Except.bind, Bool.not_true,
          Bool.false_eq_true, if_false, reduceIte] at h
        match hs : seenLookup seen tid with
        | none =>
          rw [hs] at h
          intro kv hkv
          rcases ih (seen ++ [(tid, e)]) h kv hkv with hb | hb
          · exact Or.inl (List.mem_cons_of_mem _ hb)
          · rcases List.mem_append.mp hb with hc | hc
            · exact Or.inr hc
            · left
              simp only [List.mem_singleton] at hc
              rw [hc]
              exact List.mem_cons_self _ _
        | some old =>
          rw [hs] at h
          match h2 : pyGetD e "trial" (jnum 0) with
          | .error er => simp [h2, bind, Except.bind] at h
          | .ok tr =>
            match h3 : pyGetD old "trial" (jnum 0) with
            | .error er => simp [h2, h3, bind, Except.bind] at h
            | .ok trOld =>
              match h4 : pyLt tr trOld with
              | .error er => simp [h2, h3, h4, bind, Except.bind] at h
              | .ok lt =>
                simp only [h2, h3, h4, bind, Except.bind] at h
                intro kv hkv
                match lt, h with
                | true, h =>
                  simp only [if_true] at h
                  rcases ih (seenUpdate seen tid e) h kv hkv with hb | hb
                  · exact Or.inl (List.mem_cons_of_mem _ hb)
                  · rcases seenUpdate_mem seen tid e kv hb with hc | hc
                    · exact Or.inr hc
                    · exact Or.inl (by rw [hc]; exact List.mem_cons_self _ _)
                | false, h =>
                  simp only [Bool.false_eq_true, if_false] at h
                  rcases ih seen h kv hkv with hb | hb
                  · exact Or.inl (List.mem_cons_of_mem _ hb)
                  · exact Or.inr hb

theorem keyWith_mem (l : List JVal) (kl : List (JVal × JVal))
    (h : keyWith l = .ok kl) : ∀ kv ∈ kl, kv.2 ∈ l := by
  induction l generalizing kl with
  | nil =>
    simp only [keyWith, Except.ok.injEq] at h
    subst h
    intro kv hkv
    simp at hkv
  | cons v rest ih =>
    match h1 : pyIndex v "task_id" with
    | .error er => simp [keyWith, h1, bind, Except.bind] at h
    | .ok k =>
      match h2 : keyWith rest with
      | .error er => simp [keyWith, h1, h2, bind, Except.bind] at h
      | .ok t =>
        simp only [keyWith, h1, h2, bind, Except.bind, pure, Except.pure,
          Except.ok.injEq] at h
        intro kv hkv
        rw [← h] at hkv
        rcases List.mem_cons.mp hkv with hb | hb
        · rw [hb]
          exact List.mem_cons_self _ _
        · exact List.mem_cons_of_mem _ (ih t h2 kv hb)

theorem insSorted_mem (k v : JVal) (acc out : List (JVal × JVal))
    (h : insSorted k v acc = .ok out) :
    ∀ kv ∈ out, kv ∈ acc ∨ kv = (k, v) := by
  induction acc generalizing out with
  | nil =>
    simp only [insSorted, Except.ok.injEq] at h
    subst h
    intro kv hkv
    simp only [List.mem_singleton] at hkv
    exact Or.inr hkv
  | cons p rest ih =>
    match p, h with
    | (k2, v2), h =>
      match h1 : pyLt k k2 with
      | .error er => simp [insSorted, h1, bind, Except.bind] at h
      | .ok lt =>
        simp only [insSorted, h1, bind, Except.bind] at h
        match lt, h with
        | true, h =>
          simp only [if_true] at h
          cases h
          intro kv hkv
          rcases List.mem_cons.mp hkv with hb | hb
          · exact Or.inr hb
          · exact Or.inl hb
        | false, h =>
          simp only [Bool.false_eq_true, if_false] at h
          match h2 : insSorted k v rest with
          | .error er => rw [h2] at h; simp [bind, Except.bind] at h
          | .ok t =>
            rw [h2] at h
            simp only [bind, Except.bind, pure, Except.pure,
              Except.ok.injEq] at h
            intro kv hkv
            rw [← h] at hkv
            rcases List.mem_cons.mp hkv with hb | hb
            · exact Or.inl (hb ▸ List.mem_cons_self _ _)
            · rcases ih t h2 kv hb with hc | hc
              · exact Or.inl (List.mem_cons_of_mem _ hc)
              · exact Or.inr hc

theorem sortLoop_mem (kl acc out : List (JVal × JVal))
    (h : sortLoop kl acc = .ok out) :
    ∀ kv ∈ out, kv ∈ kl ∨ kv ∈ acc := by
  induction kl generalizing acc with
  | nil =>
    simp only [sortLoop, Except.ok.injEq] at h
    subst h
    exact fun kv hkv => Or.inr hkv
  | cons p rest ih =>
    match p, h with
    | (k, v), h =>
      match h1 : insSorted k v acc with
      | .error er => simp [sortLoop, h1, bind, Except.bind] at h
      | .ok acc2 =>
        simp only [sortLoop, h1, bind, Except.bind] at h
        intro kv hkv
        rcases ih acc2 h kv hkv with hb | hb
        · exact Or.inl (List.mem_cons_of_mem _ hb)
        · rcases insSorted_mem k v acc acc2 h1 kv hb with hc | hc
          · exact Or.inr hc
          · exact Or.inl (hc ▸ List.mem_cons_self _ _)

theorem sortByTid_mem (l out : List JVal) (h : sortByTid l = .ok out) :
    ∀ e ∈ out, e ∈ l := by
  match h1 : keyWith l with
  | .error er => simp [sortByTid, h1, bind, Except.bind] at h
  | .ok kl =>
    match h2 : sortLoop kl [] with
    | .error er => simp [sortByTid, h1, h2, bind, Except.bind] at h
    | .ok sorted =>
      simp only [sortByTid, h1, h2, bind, Except.bind, pure, Except.pure,
        Except.ok.injEq] at h
      intro e he
      rw [← h] at he
      obtain ⟨kv, hkv, hkv2⟩ := List.mem_map.mp he
      rcases sortLoop_mem kl [] sorted h2 kv hkv with hb | hb
      · exact hkv2 ▸ keyWith_mem l kl h1 kv hb
      · simp at hb

theorem randBelow_lt (st : MTState) (n fuel : Nat) (j : Nat) (st2 : MTState)
    (h : randBelow st n fuel = some (j, st2)) : j < n := by
  induction fuel generalizing st with
  | zero => simp [randBelow] at h
  | succ fuel ih =>
    simp only [randBelow] at h
    split at h
    · cases h
      assumption
    · exact ih _ h

theorem getD_mem_of_lt (l : List JVal) (j : Nat) (hj : j < l.length) :
    l.getD j jnull ∈ l := by
  rw [List.getD_eq_getElem?_getD, List.getElem?_eq_getElem hj]
  exact List.getElem_mem hj

theorem samplePool_mem (cnt : Nat) :
    ∀ (st : MTState) (pool orig : List JVal) (n i : Nat)
      (out : List JVal),
      pool.length = n → (∀ x ∈ pool, x ∈ orig) →
      samplePool st pool n i cnt = some out →
      ∀ x ∈ out, x ∈ orig := by
  induction cnt with
  | zero =>
    intro st pool orig n i out _ _ h x hx
    simp only [samplePool, Option.some.injEq] at h
    subst h
    simp at hx
  | succ cnt ih =>
    intro st pool orig n i out hlen hmem h x hx
    simp only [samplePool, bind, Option.bind] at h
    match h1 : randBelow st (n - i) 1000 with
    | none => rw [h1] at h; simp at h
    | some (j, st2) =>
      rw [h1] at h
      simp only at h
      have hj : j < n - i := randBelow_lt st (n - i) 1000 j st2 h1
      match h2 : samplePool st2
          (pool.set j (pool.getD (n - i - 1) jnull)) n (i + 1) cnt with
      | none => rw [h2] at h; simp at h
      | some rest =>
        rw [h2] at h
        simp only [pure, Option.some.injEq] at h
        have hmem2 : ∀ y ∈ pool.set j (pool.getD (n - i - 1) jnull),
            y ∈ orig := by
          intro y hy
          rcases List.mem_or_eq_of_mem_set hy with hb | hb
          · exact hmem y hb
          · refine hmem _ ?_
            rw [hb]
            refine getD_mem_of_lt pool (n - i - 1) ?_
            omega
        have := ih st2 (pool.set j (pool.getD (n - i - 1) jnull)) orig n
          (i + 1) rest (by rw [List.length_set]; exact hlen) hmem2 h2
        rw [← h] at hx
        rcases List.mem_cons.mp hx with hb | hb
        · rw [hb]
          refine hmem _ (getD_mem_of_lt pool j ?_)
          omega
        · exact this x hb

theorem samplePickNew_lt (n : Nat) (selected : List Nat) (fuel : Nat) :
    ∀ (st : MTState) (j : Nat) (st2 : MTState),
      samplePickNew st n selected fuel = some (j, st2) → j < n := by
  induction fuel with
  | zero => intro st j st2 h; simp [samplePickNew] at h
  | succ fuel ih =>
    intro st j st2 h
    simp only [samplePickNew, bind, Option.bind] at h
    match h1 : randBelow st n 1000 with
    | none => rw [h1] at h; simp at h
    | some (j1, st1) =>
      rw [h1] at h
      simp only at h
      split at h
      · exact ih st1 j st2 h
      · cases h
        exact randBelow_lt st n 1000 j st2 h1

theorem sampleSet_mem (cnt : Nat) :
    ∀ (st : MTState) (population : List JVal) (n : Nat)
      (selected : List Nat) (out : List JVal),
      population.length = n →
      sampleSet st population n selected cnt = some out →
      ∀ x ∈ out, x ∈ population := by
  induction cnt with
  | zero =>
    intro st population n selected out _ h x hx
    simp only [sampleSet, Option.some.injEq] at h
    subst h
    simp at hx
  | succ cnt ih =>
    intro st population n selected out hlen h x hx
    simp only [sampleSet, bind, Option.bind] at h
    match h1 : samplePickNew st n selected 1000 with
    | none => rw [h1] at h; simp at h
    | some (j, st2) =>
      rw [h1] at h
      simp only at h
      match h2 : sampleSet st2 population n (j :: selected) cnt with
      | none => rw [h2] at h; simp at h
      | some rest =>
        rw [h2] at h
        simp only [pure, Option.some.injEq] at h
        rw [← h] at hx
        rcases List.mem_cons.mp hx with hb | hb
        · rw [hb]
          refine getD_mem_of_lt population j ?_
          rw [hlen]
          exact samplePickNew_lt n selected 1000 st j st2 h1
        · exact ih st2 population n (j :: selected) rest hlen h2 x hb

theorem pySample_mem (seed : Nat) (population : List JVal) (k : Nat)
    (out : List JVal) (h : pySample seed population k = some out) :
    ∀ x ∈ out, x ∈ population := by
  simp only [pySample] at h
  split at h
  · simp at h
  · split at h
    · exact samplePool_mem k (pySeed seed) population population
        population.length 0 out rfl (fun x hx => hx) h
    · exact sampleSet_mem k (pySeed seed) population population.length []
        out rfl h

theorem loadAndSampleFile_mem (fd : JVal) (n seed : Nat)
    (fs : List JVal) (tot : Nat)
    (h : loadAndSampleFile fd n seed = .ok (fs, tot)) :
    ∀ e ∈ fs, failCheck e = .ok true := by
  match h1 : pyIter fd with
  | .error er => simp [loadAndSampleFile, h1, bind, Except.bind] at h
  | .ok data =>
    match h2 : filterFailures data with
    | .error er => simp [loadAndSampleFile, h1, h2, bind, Except.bind] at h
    | .ok failures =>
      match h3 : dedupLoop failures [] with
      | .error er =>
        simp [loadAndSampleFile, h1, h2, h3, bind, Except.bind] at h
      | .ok seen =>
        match h4 : sortByTid (seen.map (·.2)) with
        | .error er =>
          simp [loadAndSampleFile, h1, h2, h3, h4, bind, Except.bind] at h
        | .ok unique =>
          have huniq : ∀ e ∈ unique, failCheck e = .ok true := by
            intro e he
            have h5 := sortByTid_mem _ _ h4 e he
            obtain ⟨kv, hkv, hkv2⟩ := List.mem_map.mp h5
            rcases dedupLoop_mem failures [] seen h3 kv hkv with hb | hb
            · exact filterFailures_mem data failures h2 e (hkv2 ▸ hb)
            · simp at hb
          simp only [loadAndSampleFile, h1, h2, h3, h4, bind,
            Except.bind] at h
          split at h
          · simp only [Except.ok.injEq, Prod.mk.injEq] at h
            intro e he
            exact huniq e (h.1 ▸ he)
          · match h6 : pySample seed unique n with
            | none => rw [h6] at h; simp at h
            | some s =>
              rw [h6] at h
              simp only [Except.ok.injEq, Prod.mk.injEq] at h
              intro e he
              exact huniq e (pySample_mem seed unique n s h6 e (h.1 ▸ he))

/-- Claim C4 (corrected, amended): every entry selected as a failure case
whose info member is a JSON object satisfies the exactly-one invariant
(info.task present with truthy traj, xor info.error present with falsy
traj).  Without the object restriction the sampler does not reject all
violators, because `"task" in info` is Python membership — see the
counterexample, where info is the string "task". -/
theorem C4_selected_failures_satisfy_invariant (fd : JVal) (n seed : Nat)
    (fs : List JVal) (tot : Nat)
    (h : loadAndSampleFile fd n seed = .ok (fs, tot)) :
    ∀ e ∈ fs, isObjJ (infoVal e) = true → specEntryInvariant e = true := by
  intro e he hobj
  have hc := loadAndSampleFile_mem fd n seed fs tot h e he
  match e, hc, hobj with
  | jobj kvs, hc, hobj =>
    simp only [failCheck, pyGetD, bind, Except.bind] at hc
    match hrw : pyEq ((jLookup kvs "reward").getD (jnum 1)) (jnum 0) with
    | false => rw [hrw] at hc; simp [pure, Except.pure] at hc
    | true =>
      rw [hrw] at hc
      simp only [if_true] at hc
      have hinfo : infoVal (jobj kvs) = (jLookup kvs "info").getD (jobj []) :=
        rfl
      match hi : (jLookup kvs "info").getD (jobj []) with
      | jobj ikvs =>
        rw [hi] at hc
        simp only [pyIn, bind, Except.bind] at hc
        match hts : (jLookup ikvs "task").isSome with
        | false => rw [hts] at hc; simp [pure, Except.pure] at hc
        | true =>
          rw [hts] at hc
          simp only [if_true] at hc
          match htr : ((jLookup kvs "traj").getD jnull).truthy with
          | false =>
            rw [htr] at hc
            simp [pure, Except.pure] at hc
          | true =>
            simp only [specEntryInvariant, infoVal, trajVal, hi, hts, htr]
            simp
      | jnull => rw [hi] at hinfo; rw [hinfo] at hobj; simp [isObjJ] at hobj
      | jbool b => rw [hi] at hinfo; rw [hinfo] at hobj; simp [isObjJ] at hobj
      | jnum q => rw [hi] at hinfo; rw [hinfo] at hobj; simp [isObjJ] at hobj
      | jspecial s =>
        rw [hi] at hinfo; rw [hinfo] at hobj; simp [isObjJ] at hobj
      | jstr s => rw [hi] at hinfo; rw [hinfo] at hobj; simp [isObjJ] at hobj
      | jarr xs => rw [hi] at hinfo; rw [hinfo] at hobj; simp [isObjJ] at hobj

def c4cex : JVal :=
  jobj [("task_id", jnum 1), ("trial", jnum 0), ("reward", jnum 0),
        ("info", jstr "task"), ("traj", jarr [jnum 1])]

/-- Counterexample to C4 as stated: an entry whose info member is the
string "task" passes the sampler filter (string membership) but violates
the exactly-one invariant — the sampler does not reject it. -/
theorem C4_selected_failures_satisfy_invariant_counterexample :
    loadAndSampleFile (jarr [c4cex]) 50 42 = .ok ([c4cex], 1)
    ∧ specEntryInvariant c4cex = false :=
  ⟨by rfl, by rfl⟩

/-- Witness for C4 at a well-formed selected entry. -/
theorem C4_selected_failures_satisfy_invariant_witness :
    specEntryInvariant (goodEntry 6) = true :=
  C4_selected_failures_satisfy_invariant (jarr [goodEntry 6]) 50 42
    [goodEntry 6] 1 (by rfl) (goodEntry 6) (by simp) (by rfl)

/- ── C1: resume correctness ──────────────────────────────────────────── -/

/-- The skip test of the classification loop: info.task missing or falsy
(the "crashed run" safety net of process_file). -/
def taskOfEntry (f : JVal) : Except PyErr JVal := do
  let info ← pyGetD f "info" (jobj [])
  pyGetD info "task" jnull

def entrySkip (f : JVal) : Bool :=
  match taskOfEntry f with
  | .ok t => !t.truthy
  | .error _ => false

/-- The classifications list of a final result object. -/
def resClassifications (res : JVal) : Option (List JVal) :=
  match res with
  | jobj kvs =>
    match jLookup kvs "classifications" with
    | some (jarr l) => some l
    | _ => none
  | _ => none

/-- A successful classification loop appends one record per non-skipped
entry to the accumulator it started from. -/
theorem classifyLoopRun_shape (oracle : Nat → Except String String)
    (delay : Rat) (rest : List JVal) :
    ∀ (acc : List JVal) (idx : Nat) (ck : Option JVal) (cls : List JVal)
      (calls : Nat) (ck2 : Option JVal),
      classifyLoopRun oracle delay rest acc idx ck = .ok (cls, calls, ck2) →
      ∃ extra, cls = acc ++ extra
        ∧ extra.length = rest.countP (fun f => !entrySkip f) := by
  induction rest with
  | nil =>
    intro acc idx ck cls calls ck2 h
    simp only [classifyLoopRun, Except.ok.injEq, Prod.mk.injEq] at h
    exact ⟨[], by simp [← h.1], by simp⟩
  | cons f rest ih =>
    intro acc idx ck cls calls ck2 h
    match h1 : pyGetD f "info" (jobj []) with
    | .error er => simp [classifyLoopRun, h1, bind, Except.bind] at h
    | .ok info =>
    match h2 : pyGetD info "task" jnull with
    | .error er => simp [classifyLoopRun, h1, h2, bind, Except.bind] at h
    | .ok task =>
    have hskip : entrySkip f = !task.truthy := by
      simp [entrySkip, taskOfEntry, h1, h2, bind, Except.bind]
    match htr : task.truthy with
    | false =>
      simp only [classifyLoopRun, h1, h2, htr, bind, Except.bind,
        Bool.not_false, if_true] at h
      obtain ⟨extra, he, hl⟩ := ih acc idx ck cls calls ck2 h
      refine ⟨extra, he, ?_⟩
      rw [hl, List.countP_cons]
      simp [hskip, htr]
    | true =>
      simp only [classifyLoopRun, h1, h2, htr, bind, Except.bind,
        Bool.not_true, Bool.false_eq_true, if_false, reduceIte] at h
      match h3 : classifyOneTr oracle idx f delay with
      | .error er => rw [h3] at h; simp at h
      | .ok r =>
      rw [h3] at h
      simp only at h
      match h4 : pyIndex f "task_id" with
      | .error er => rw [h4] at h; simp at h
      | .ok tid =>
      rw [h4] at h
      simp only at h
      match h5 : pyGetD f "trial" (jnum 0) with
      | .error er => rw [h5] at h; simp at h
      | .ok trial =>
      rw [h5] at h
      simp only at h
      match h6 : pyGetD task "instruction" (jstr "") with
      | .error er => rw [h6] at h; simp at h
      | .ok instr =>
      rw [h6] at h
      simp only at h
      match h7 : pyGetD task "actions" (jarr []) with
      | .error er => rw [h7] at h; simp at h
      | .ok gta =>
      rw [h7] at h
      simp only at h
      match h8 : pyGetD f "traj" (jarr []) with
      | .error er => rw [h8] at h; simp at h
      | .ok trajV =>
      rw [h8] at h
      simp only at h
      match h9 : extractAgentActions trajV with
      | .error er => rw [h9] at h; simp at h
      | .ok aacts =>
      rw [h9] at h
      simp only at h
      obtain ⟨extra, he, hl⟩ := ih _ _ _ cls calls ck2 h
      refine ⟨jobj [("task_id", tid), ("trial", trial), ("instruction", instr),
        ("ground_truth_actions", gta), ("agent_actions", jarr aacts),
        ("classification", r.1)] :: extra, ?_, ?_⟩
      · rw [he]
        simp
      · rw [List.countP_cons]
        simp [hskip, htr, hl]

theorem countP_not_add (l : List JVal) (p : JVal → Bool) :
    l.countP (fun f => !p f) + l.countP p = l.length := by
  induction l with
  | nil => simp
  | cons f rest ih =>
    rw [List.countP_cons, List.countP_cons]
    cases hp : p f <;> simp [hp] <;> omega

/-- Claim C1 (corrected, amended): resuming an interrupted classification
run from a checkpoint of K records produces a final classification list
whose first K entries are exactly the checkpoint records and whose total
length is N minus the number of skipped entries (falsy info.task) among
the sampled entries from position K on.  When no entry before the
interruption point was skipped this equals N minus all skipped entries,
which is the claim as stated; the counterexample shows the original claim
fails when a skip precedes the interruption, because the resume index
len(classifications) then lags the true position. -/
theorem C1_resume_correctness
    (args : CliArgs) (cn fn : String) (fd : JVal) (fs : FS)
    (oracle : Nat → Except String String) (ck failures : List JVal)
    (tot K : Nat) (res : JVal) (fs2 : FS) (calls : Nat)
    (hres : fs.result = none) (hforce : args.force = false)
    (hdry : args.dryRun = false)
    (hck : fs.ckpt = some (jobj [("classifications", jarr ck)]))
    (hsamp : loadAndSampleFile fd args.sampleSize 42 = .ok (failures, tot))
    (hK : K = ck.length) (hKle : K ≤ failures.length)
    (hrun : processFile args cn fn fd fs oracle
      = .ok (.done (some res) fs2 calls)) :
    ∃ cls, resClassifications res = some cls ∧ cls.take K = ck
      ∧ cls.length
          = failures.length - (failures.drop K).countP entrySkip := by
  unfold processFile at hrun
  rw [hres, hforce] at hrun
  simp only [hsamp, bind, Except.bind] at hrun
  match hdata : pyIter fd with
  | .error er => rw [hdata] at hrun; simp at hrun
  | .ok data =>
  rw [hdata] at hrun
  simp only at hrun
  match htt : totalTasksOf data with
  | .error er => rw [htt] at hrun; simp at hrun
  | .ok totalTasks =>
  rw [htt] at hrun
  simp only at hrun
  match hemp : failures.isEmpty with
  | true => rw [hemp] at hrun; simp at hrun
  | false =>
  rw [hemp] at hrun
  rw [hdry] at hrun
  simp only [Bool.false_eq_true, if_false, reduceIte, hck, hforce] at hrun
  simp only [pyGetD, jLookup, beq_self_eq_true, if_true, Option.getD_some,
    bind, Except.bind] at hrun
  match hloop : classifyLoopRun oracle args.delay (failures.drop ck.length)
      ck 0 (some (jobj [("classifications", jarr ck)])) with
  | .error er => rw [hloop] at hrun; simp at hrun
  | .ok lr =>
  rw [hloop] at hrun
  simp only at hrun
  match hsum : computeSummary lr.1 with
  | .error er => rw [hsum] at hrun; simp at hrun
  | .ok summary =>
  rw [hsum] at hrun
  simp only at hrun
  match htf : totalFailuresOf data with
  | .error er => rw [htf] at hrun; simp at hrun
  | .ok totalFailures =>
  rw [htf] at hrun
  simp only [Except.ok.injEq, RunOut.done.injEq, Option.some.injEq] at hrun
  obtain ⟨hres2, _, _⟩ := hrun
  obtain ⟨extra, he, hl⟩ := classifyLoopRun_shape oracle args.delay
    (failures.drop ck.length) ck 0 (some (jobj [("classifications", jarr ck)]))
    lr.1 lr.2.1 lr.2.2 (by
      cases lr with
      | mk a b => cases b with
        | mk c d => exact hloop)
  refine ⟨lr.1, ?_, ?_, ?_⟩
  · rw [← hres2]
    rfl
  · rw [he, hK, List.take_left]
  · have hc := countP_not_add (failures.drop K) entrySkip
    have hd : (failures.drop K).length = failures.length - K :=
      List.length_drop K failures
    rw [he]
    simp only [List.length_append]
    rw [hK] at hc hd ⊢
    omega

/-- The verdict parsed from flatVerdictResp. -/
def c1verdict : JVal := jobj [("primary_category", jstr "wrong_tool"),
  ("sub_category", jstr "s"), ("explanation", jstr "e")]

/-- The classification record the loop produces for goodEntry 1. -/
def c1rec : JVal := jobj [("task_id", jnum 1), ("trial", jnum 0),
  ("instruction", jstr "I"), ("ground_truth_actions", jarr []),
  ("agent_actions", jarr []), ("classification", c1verdict)]

/-- A zero-reward entry with a falsy info.task: the loop skips it without
classifying, but load_and_sample still selects it. -/
def c1skip : JVal := jobj [("task_id", jnum 0), ("trial", jnum 0),
  ("reward", jnum 0), ("info", jobj [("task", jobj [])]),
  ("traj", jarr [userMsg])]

/-- The checkpoint written after one record has been classified. -/
def c1ck : JVal := jobj [("classifications", jarr [c1rec])]

def c1file : JVal := jarr [c1skip, goodEntry 1]

def c1args : CliArgs := ⟨"anthropic", "m", 50, 1/2, false, false, 42⟩

/-- Resume file for the witness: two well-formed failures, no skips. -/
def c1wFile : JVal := jarr [goodEntry 1, goodEntry 2]

/-- The classification record the loop produces for goodEntry 2. -/
def c1wRec2 : JVal := jobj [("task_id", jnum 2), ("trial", jnum 0),
  ("instruction", jstr "I"), ("ground_truth_actions", jarr []),
  ("agent_actions", jarr []), ("classification", c1verdict)]

/-- The final result object of the resumed run on c1wFile. -/
def c1wRes : JVal := jobj [("config", jstr "cfg"), ("file", jstr "f"),
  ("stats", jobj [("total_tasks", jnum ((2:Nat) : Rat)),
    ("total_failures_in_file", jnum ((2:Nat) : Rat)),
    ("unique_failures_sampled", jnum ((2:Nat) : Rat))]),
  ("summary", jobj [("wrong_tool", jobj [("count", jnum ((2:Nat) : Rat)),
    ("percentage", jnum (pyRound1 ((100 * (2:Nat) : Rat) / ((2:Nat) : Rat))))])]),
  ("classifications", jarr [c1rec, c1wRec2])]

/-- C1 counterexample: on a file whose sampled failures are a skipped
entry (falsy info.task) followed by a good one, an interrupted first run
checkpoints one record (the good entry, classified while the skip
contributed nothing); the resumed run restarts at index
len(checkpoint) = 1, reclassifies the same good entry, and ends with 2
records, while the claimed count N minus skipped is 2 - 1 = 1. -/
theorem C1_resume_correctness_counterexample :
    classifyLoopRun okOracle (1/2) [c1skip, goodEntry 1] [] 0 none
      = .ok ([c1rec], 1, some c1ck)
    ∧ loadAndSampleFile c1file 50 42 = .ok ([c1skip, goodEntry 1], 2)
    ∧ ([c1skip, goodEntry 1] : List JVal).countP entrySkip = 1
    ∧ (match processFile c1args "cfg" "f" c1file ⟨none, some c1ck⟩ okOracle with
       | .ok (.done (some r) _ _) => (resClassifications r).map List.length
       | _ => none) = some 2
    ∧ ¬ ((2:Nat) = 2 - 1) :=
  ⟨rfl, rfl, rfl, rfl, by norm_num⟩

/-- C1 witness: a clean two-failure file resumed from a one-record
checkpoint; the final list keeps the checkpoint record first and has
length 2 - 0. -/
theorem C1_resume_correctness_witness :
    ∃ cls, resClassifications c1wRes = some cls ∧ cls.take 1 = [c1rec]
      ∧ cls.length
          = ([goodEntry 1, goodEntry 2] : List JVal).length
            - (([goodEntry 1, goodEntry 2] : List JVal).drop 1).countP entrySkip :=
  C1_resume_correctness c1args "cfg" "f" c1wFile ⟨none, some c1ck⟩ okOracle
    [c1rec] [goodEntry 1, goodEntry 2] 2 1 c1wRes ⟨some c1wRes, none⟩ 1
    rfl rfl rfl rfl rfl rfl (by norm_num) rfl

def fieldChar (c : Char) : Bool :=
  32 ≤ c.toNat && !(c == '"') && !(c == '\\') && !(c == '\x7b') &&
  !(c == '\x7d') && !(c == '`')

def proseChar (c : Char) : Bool :=
  !(c == '\x7b') && !(c == '\x7d') && !(c == '`')

def headFailChar (c : Char) : Bool :=
  !(isPyWs c) && !(c == '\x7b') && !(c == '[') && !(c == '"') &&
  !(c == 't') && !(c == 'f') && !(c == 'n') && !(c == 'N') &&
  !(c == 'I') && !(c == '-') && !('0' ≤ c && c ≤ '9')

def vtInterior (pc sc ex : List Char) : List Char :=
  "\"primary_category\": \"".toList ++ pc ++
  "\", \"sub_category\": \"".toList ++ sc ++
  "\", \"explanation\": \"".toList ++ ex ++ ['"']

def vtTail3 (ex : List Char) : List Char :=
  '"' :: ("explanation".toList ++ '"' :: ':' :: ' ' :: '"' ::
    (ex ++ '"' :: '\x7d' :: []))

def vtTail2 (sc ex : List Char) : List Char :=
  '"' :: ("sub_category".toList ++ '"' :: ':' :: ' ' :: '"' ::
    (sc ++ '"' :: ',' :: ' ' :: vtTail3 ex))

def vtTail1 (pc sc ex : List Char) : List Char :=
  '"' :: ("primary_category".toList ++ '"' :: ':' :: ' ' :: '"' ::
    (pc ++ '"' :: ',' :: ' ' :: vtTail2 sc ex))

def verdictText (pc sc ex : List Char) : List Char :=
  '\x7b' :: vtTail1 pc sc ex

def verdictObj (pc sc ex : List Char) : JVal :=
  jobj [("primary_category", jstr (String.mk pc)),
        ("sub_category", jstr (String.mk sc)),
        ("explanation", jstr (String.mk ex))]

-- basic lemmas
theorem listStartsWith_append_self (pat rest : List Char) :
    listStartsWith pat (pat ++ rest) = true := by
  induction pat with
  | nil => rfl
  | cons c cs ih => simp [listStartsWith, ih]

theorem containsSub_of_head (pat rest : List Char) (h : pat ≠ []) :
    containsSub pat (pat ++ rest) = true := by
  match pat with
  | p :: ps =>
    simp only [containsSub, List.cons_append]
    rw [show (p :: (ps ++ rest)) = (p :: ps) ++ rest from rfl,
      listStartsWith_append_self]
    simp

theorem takeWhile_all_append (p : Char → Bool) (l : List Char) (c : Char)
    (rest : List Char) (hl : ∀ x ∈ l, p x = true) (hc : p c = false) :
    (l ++ c :: rest).takeWhile p = l ∧ (l ++ c :: rest).drop l.length = c :: rest := by
  induction l with
  | nil => simp [List.takeWhile_cons, hc]
  | cons a as ih =>
    have ha : p a = true := hl a (by simp)
    have := ih (fun x hx => hl x (by simp [hx]))
    simp [List.takeWhile_cons, ha, this.1, this.2]

theorem getLastD_append_char (l l2 : List Char) (d : Char) :
    (l ++ l2).getLastD d = l2.getLastD (l.getLastD d) := by
  induction l generalizing d with
  | nil => simp
  | cons a as ih =>
    rw [List.cons_append, List.getLastD_cons, ih, List.getLastD_cons]

theorem dropWhile_head_false (p : Char → Bool) (l : List Char)
    (h : p (l.headD 'x') = false) : l.dropWhile p = l := by
  match l with
  | [] => rfl
  | c :: rest => simp only [List.headD_cons] at h; simp [List.dropWhile_cons, h]

theorem pyStrip_eq_self (l : List Char)
    (h1 : isPyWs (l.headD 'x') = false)
    (h2 : isPyWs (l.getLastD 'x') = false) : pyStrip l = l := by
  unfold pyStrip
  rw [dropWhile_head_false _ _ h1]
  unfold dropTrailing
  rw [dropWhile_head_false, List.reverse_reverse]
  match l with
  | [] => rfl
  | c :: rest =>
    rw [show (c :: rest).reverse.headD 'x' = (c :: rest).getLastD 'x' from ?_]
    · exact h2
    · rw [List.getLastD_eq_getLast?]
      rw [List.getLast?_eq_head?_reverse]
      cases (c :: rest).reverse with
      | nil => rfl
      | cons a as => rfl

theorem parseJStringBody_safe (s : List Char)
    (hs : ∀ c ∈ s, fieldChar c = true) :
    ∀ rest, parseJStringBody (s ++ '"' :: rest) = some (s, rest) := by
  induction s with
  | nil => intro rest; rfl
  | cons c cs ih =>
    intro rest
    have hc : fieldChar c = true := hs c (by simp)
    simp only [fieldChar, Bool.and_eq_true, Bool.not_eq_true', beq_eq_false_iff_ne,
      decide_eq_true_eq] at hc
    obtain ⟨⟨⟨⟨⟨h32, hq⟩, hb⟩, _⟩, _⟩, _⟩ := hc
    have hrec := ih (fun x hx => hs x (by simp [hx])) rest
    rw [List.cons_append, parseJStringBody.eq_def]
    split
    · simp_all
    · rename_i heq; rw [List.cons.injEq] at heq; exact absurd heq.1 hq
    · rename_i heq; rw [List.cons.injEq] at heq; exact absurd heq.1 hb
    · rename_i heq; rw [List.cons.injEq] at heq; exact absurd heq.1 hb
    · rename_i c2 rest2 heq
      rw [List.cons.injEq] at heq
      obtain ⟨hc2, hrest2⟩ := heq
      subst hc2; subst hrest2
      rw [if_neg (by omega), hrec]
      rfl

theorem isJsonWs_false_of_isPyWs_false (c : Char) (h : isPyWs c = false) :
    isJsonWs c = false := by
  simp only [isPyWs, Bool.or_eq_false_iff, Bool.and_eq_false_iff,
    decide_eq_false_iff_not, not_le] at h
  simp only [isJsonWs, Bool.or_eq_false_iff, decide_eq_false_iff_not]
  omega

theorem parseJValue_head_fail (c : Char) (rest : List Char)
    (hc : headFailChar c = true) :
    ∀ fuel, parseJValue fuel (c :: rest) = none := by
  simp only [headFailChar, Bool.and_eq_true, Bool.not_eq_true',
    beq_eq_false_iff_ne, Bool.not_eq_true] at hc
  obtain ⟨⟨⟨⟨⟨⟨⟨⟨⟨⟨hws, hbr⟩, hsq⟩, hq⟩, ht⟩, hf⟩, hn⟩, hN⟩, hI⟩, hm⟩, hd⟩ := hc
  intro fuel
  match fuel with
  | 0 => rfl
  | fuel + 1 =>
    have hdw : List.dropWhile isJsonWs (c :: rest) = c :: rest :=
      dropWhile_head_false _ _ (by
        simp only [List.headD_cons]
        exact isJsonWs_false_of_isPyWs_false c hws)
    rw [parseJValue.eq_def]
    simp only [hdw]
    split
    all_goals first
      | rfl
      | (rename_i heq
         rw [List.cons.injEq] at heq
         first
           | exact absurd heq.1 hbr
           | exact absurd heq.1 hsq
           | exact absurd heq.1 hq
           | exact absurd heq.1 ht
           | exact absurd heq.1 hf
           | exact absurd heq.1 hn
           | exact absurd heq.1 hN
           | exact absurd heq.1 hI
           | exact absurd heq.1 hm)
      | (rename_i h
         rw [hd] at h
         exact absurd h (by simp))

theorem jsonLoads_head_fail (c : Char) (rest : List Char)
    (hc : headFailChar c = true) : jsonLoads (c :: rest) = none := by
  unfold jsonLoads
  rw [parseJValue_head_fail c rest hc]

theorem findFenced_none (l : List Char) (h : ∀ c ∈ l, ¬(c = '`')) :
    findFenced l = none := by
  induction l with
  | nil => rfl
  | cons c rest ih =>
    have hc : ¬(c = '`') := h c (by simp)
    have hsw : listStartsWith "```".toList (c :: rest) = false := by
      rw [show "```".toList = '`' :: '`' :: ['`'] from rfl]
      simp only [listStartsWith]
      simp [show ¬('`' = c) from fun hx => hc hx.symm]
    rw [findFenced]
    rw [hsw]
    simp only [Bool.false_eq_true, if_false, reduceIte]
    exact ih (fun x hx => h x (by simp [hx]))

theorem findPC_skip (p : List Char) (rest : List Char)
    (h : ∀ c ∈ p, ¬(c = '\x7b')) : findPC (p ++ rest) = findPC rest := by
  induction p with
  | nil => rfl
  | cons c cs ih =>
    have hc : ¬(c = '\x7b') := h c (by simp)
    have hat : pcAttempt (c :: (cs ++ rest)) = none := by
      rw [pcAttempt.eq_def]
      split
      · rename_i heq; rw [List.cons.injEq] at heq; exact absurd heq.1 hc
      · rfl
    rw [List.cons_append, findPC, hat]
    exact ih (fun x hx => h x (by simp [hx]))

theorem pcAttempt_hit (interior p2 : List Char)
    (hi : ∀ c ∈ interior, ¬(c = '\x7b') ∧ ¬(c = '\x7d'))
    (hpc : containsSub pcLit interior = true) :
    pcAttempt ('\x7b' :: (interior ++ '\x7d' :: p2))
      = some ('\x7b' :: (interior ++ ['\x7d'])) := by
  have htk := takeWhile_all_append (fun c => c != '\x7b' && c != '\x7d')
    interior '\x7d' p2
    (fun x hx => by
      obtain ⟨h1, h2⟩ := hi x hx
      simp [h1, h2])
    (by simp)
  rw [pcAttempt.eq_def]
  simp only [htk.1, htk.2, hpc, if_true]

theorem fenceLazy_walk (interior : List Char)
    (hi : ∀ c ∈ interior, ¬(c = '\x7d')) (tail : List Char)
    (htail : listStartsWith "```".toList (tail.dropWhile isReWs) = true) :
    ∀ acc, fenceLazy acc (interior ++ '\x7d' :: tail)
      = some ('\x7b' :: (acc.reverse ++ interior ++ ['\x7d'])) := by
  induction interior with
  | nil =>
    intro acc
    rw [List.nil_append, fenceLazy, htail]
    simp
  | cons c cs ih =>
    intro acc
    have hc : ¬(c = '\x7d') := hi c (by simp)
    rw [List.cons_append, fenceLazy]
    rw [show (c == '\x7d') = false from by simp [hc]]
    simp only [Bool.false_and, Bool.false_eq_true, if_false, reduceIte]
    rw [ih (fun x hx => hi x (by simp [hx])) (c :: acc)]
    simp

theorem parseJValue_str (f : Nat) (val rest : List Char)
    (hv : ∀ c ∈ val, fieldChar c = true) :
    parseJValue (f+1) (' ' :: '"' :: (val ++ '"' :: rest))
      = some (jstr (String.mk val), rest) := by
  show Option.map (fun r => (jstr (String.mk r.1), r.2))
    (parseJStringBody (val ++ '"' :: rest)) = some (jstr (String.mk val), rest)
  rw [parseJStringBody_safe val hv rest]
  rfl

theorem parseJMembers_step_comma (f : Nat) (key val rest : List Char)
    (acc : List (String × JVal))
    (hk : ∀ c ∈ key, fieldChar c = true)
    (hv : ∀ c ∈ val, fieldChar c = true)
    (hr : List.dropWhile isJsonWs rest = rest) :
    parseJMembers (f+1+1)
      ('"' :: (key ++ '"' :: ':' :: ' ' :: '"' :: (val ++ '"' :: ',' :: ' ' :: rest))) acc
      = parseJMembers (f+1) rest
          ((jInsert acc.reverse (String.mk key) (jstr (String.mk val))).reverse) := by
  rw [parseJMembers.eq_def]
  simp only []
  rw [parseJStringBody_safe key hk]
  simp only []
  rw [show List.dropWhile isJsonWs (':' :: ' ' :: '"' :: (val ++ '"' :: ',' :: ' ' :: rest))
        = ':' :: ' ' :: '"' :: (val ++ '"' :: ',' :: ' ' :: rest) from rfl]
  simp only []
  rw [parseJValue_str f val (',' :: ' ' :: rest) hv]
  simp only []
  rw [show List.dropWhile isJsonWs (',' :: ' ' :: rest) = ',' :: ' ' :: rest from rfl]
  simp only []
  rw [show List.dropWhile isJsonWs (' ' :: rest) = List.dropWhile isJsonWs rest from rfl]
  rw [hr]

theorem parseJMembers_step_close (f : Nat) (key val rest : List Char)
    (acc : List (String × JVal))
    (hk : ∀ c ∈ key, fieldChar c = true)
    (hv : ∀ c ∈ val, fieldChar c = true) :
    parseJMembers (f+1+1)
      ('"' :: (key ++ '"' :: ':' :: ' ' :: '"' :: (val ++ '"' :: '\x7d' :: rest))) acc
      = some (jobj (jInsert acc.reverse (String.mk key) (jstr (String.mk val))), rest) := by
  rw [parseJMembers.eq_def]
  simp only []
  rw [parseJStringBody_safe key hk]
  simp only []
  rw [show List.dropWhile isJsonWs (':' :: ' ' :: '"' :: (val ++ '"' :: '\x7d' :: rest))
        = ':' :: ' ' :: '"' :: (val ++ '"' :: '\x7d' :: rest) from rfl]
  simp only []
  rw [parseJValue_str f val ('\x7d' :: rest) hv]
  simp only []
  rw [show List.dropWhile isJsonWs ('\x7d' :: rest) = '\x7d' :: rest from rfl]
  simp only [List.reverse_reverse]

theorem verdictText_shape (pc sc ex : List Char) :
    verdictText pc sc ex = '\x7b' :: (vtInterior pc sc ex ++ ['\x7d']) := by
  simp [verdictText, vtTail1, vtTail2, vtTail3, vtInterior, List.append_assoc]

theorem parseJMembers_verdict (pc sc ex : List Char)
    (hpc : ∀ c ∈ pc, fieldChar c = true) (hsc : ∀ c ∈ sc, fieldChar c = true)
    (hex : ∀ c ∈ ex, fieldChar c = true) (f : Nat) :
    parseJMembers (f+1+1+1+1) (vtTail1 pc sc ex) []
      = some (verdictObj pc sc ex, []) := by
  rw [show vtTail1 pc sc ex
      = '"' :: ("primary_category".toList ++ '"' :: ':' :: ' ' :: '"' ::
          (pc ++ '"' :: ',' :: ' ' :: vtTail2 sc ex)) from rfl]
  rw [parseJMembers_step_comma (f+1+1) _ pc _ _ (by decide) hpc rfl]
  rw [show vtTail2 sc ex
      = '"' :: ("sub_category".toList ++ '"' :: ':' :: ' ' :: '"' ::
          (sc ++ '"' :: ',' :: ' ' :: vtTail3 ex)) from rfl]
  rw [parseJMembers_step_comma (f+1) _ sc _ _ (by decide) hsc rfl]
  rw [show vtTail3 ex
      = '"' :: ("explanation".toList ++ '"' :: ':' :: ' ' :: '"' ::
          (ex ++ '"' :: '\x7d' :: [])) from rfl]
  rw [parseJMembers_step_close f _ ex _ _ (by decide) hex]
  rfl

theorem jsonLoads_verdictText (pc sc ex : List Char)
    (hpc : ∀ c ∈ pc, fieldChar c = true) (hsc : ∀ c ∈ sc, fieldChar c = true)
    (hex : ∀ c ∈ ex, fieldChar c = true) :
    jsonLoads (verdictText pc sc ex) = some (verdictObj pc sc ex) := by
  have hlen : 4 ≤ (verdictText pc sc ex).length := by
    simp [verdictText, vtTail1]
  obtain ⟨g, hg⟩ : ∃ g, (verdictText pc sc ex).length = g+1+1+1+1 :=
    ⟨(verdictText pc sc ex).length - 4, by omega⟩
  unfold jsonLoads
  rw [show parseJValue ((verdictText pc sc ex).length + 1) (verdictText pc sc ex)
      = parseJMembers ((verdictText pc sc ex).length) (vtTail1 pc sc ex) [] from rfl]
  rw [hg, parseJMembers_verdict pc sc ex hpc hsc hex g]
  rfl

theorem fieldChar_props (c : Char) (h : fieldChar c = true) :
    ¬(c = '\x7b') ∧ ¬(c = '\x7d') ∧ ¬(c = '`') := by
  simp only [fieldChar, Bool.and_eq_true, Bool.not_eq_true',
    beq_eq_false_iff_ne] at h
  exact ⟨h.1.1.2, h.1.2, h.2⟩

theorem vtInterior_chars (pc sc ex : List Char)
    (hpc : ∀ c ∈ pc, fieldChar c = true) (hsc : ∀ c ∈ sc, fieldChar c = true)
    (hex : ∀ c ∈ ex, fieldChar c = true) :
    ∀ c ∈ vtInterior pc sc ex, ¬(c = '\x7b') ∧ ¬(c = '\x7d') ∧ ¬(c = '`') := by
  intro c hc
  simp only [vtInterior, List.mem_append, List.mem_cons,
    List.not_mem_nil, or_false] at hc
  rcases hc with ((((((h | h) | h) | h) | h) | h) | h)
  · revert h; revert c; decide
  · exact fieldChar_props c (hpc c h)
  · revert h; revert c; decide
  · exact fieldChar_props c (hsc c h)
  · revert h; revert c; decide
  · exact fieldChar_props c (hex c h)
  · subst h; decide

theorem verdictText_getLast (pc sc ex : List Char) (d : Char) :
    (verdictText pc sc ex).getLastD d = '\x7d' := by
  rw [verdictText_shape, List.getLastD_cons, getLastD_append_char]
  rfl

theorem parseResponse_bare (pc sc ex : List Char)
    (hpc : ∀ c ∈ pc, fieldChar c = true) (hsc : ∀ c ∈ sc, fieldChar c = true)
    (hex : ∀ c ∈ ex, fieldChar c = true) :
    parseResponse (verdictText pc sc ex) = .ok (verdictObj pc sc ex) := by
  unfold parseResponse
  rw [pyStrip_eq_self _ (by rfl) (by rw [verdictText_getLast]; rfl)]
  simp only [jsonLoads_verdictText pc sc ex hpc hsc hex]
  rfl

theorem vtTail1_eq (pc sc ex : List Char) :
    vtTail1 pc sc ex = vtInterior pc sc ex ++ ['\x7d'] := by
  have h := verdictText_shape pc sc ex
  rw [verdictText] at h
  exact (List.cons.injEq _ _ _ _).mp h |>.2

theorem findFenced_fencedText (pc sc ex : List Char)
    (hpc : ∀ c ∈ pc, fieldChar c = true) (hsc : ∀ c ∈ sc, fieldChar c = true)
    (hex : ∀ c ∈ ex, fieldChar c = true) :
    findFenced ("```json\n".toList ++ (verdictText pc sc ex ++ "\n```".toList))
      = some (verdictText pc sc ex) := by
  rw [show "```json\n".toList ++ (verdictText pc sc ex ++ "\n```".toList)
      = '`' :: ("``json\n".toList ++ (verdictText pc sc ex ++ "\n```".toList)) from rfl]
  rw [findFenced]
  rw [show listStartsWith "```".toList
      ('`' :: ("``json\n".toList ++ (verdictText pc sc ex ++ "\n```".toList))) = true from rfl]
  simp only [if_true]
  rw [show ('`' :: ("``json\n".toList ++ (verdictText pc sc ex ++ "\n```".toList))).drop 3
      = "json\n".toList ++ (verdictText pc sc ex ++ "\n```".toList) from rfl]
  rw [fenceAttempt]
  rw [show listStartsWith "json".toList
      ("json\n".toList ++ (verdictText pc sc ex ++ "\n```".toList)) = true from rfl]
  simp only [if_true]
  rw [show ("json\n".toList ++ (verdictText pc sc ex ++ "\n```".toList)).drop 4
      = '\n' :: (verdictText pc sc ex ++ "\n```".toList) from rfl]
  rw [fenceAttemptBody]
  rw [show List.dropWhile isReWs ('\n' :: (verdictText pc sc ex ++ "\n```".toList))
      = '\x7b' :: (vtTail1 pc sc ex ++ "\n```".toList) from rfl]
  simp only []
  rw [vtTail1_eq, List.append_assoc,
    show ['\x7d'] ++ "\n```".toList = '\x7d' :: "\n```".toList from rfl]
  rw [fenceLazy_walk (vtInterior pc sc ex)
    (fun c hc => (vtInterior_chars pc sc ex hpc hsc hex c hc).2.1)
    "\n```".toList (by rfl) []]
  rw [verdictText_shape]
  simp

theorem parseResponse_fenced (pc sc ex : List Char)
    (hpc : ∀ c ∈ pc, fieldChar c = true) (hsc : ∀ c ∈ sc, fieldChar c = true)
    (hex : ∀ c ∈ ex, fieldChar c = true) :
    parseResponse ("```json\n".toList ++ (verdictText pc sc ex ++ "\n```".toList))
      = .ok (verdictObj pc sc ex) := by
  unfold parseResponse
  rw [pyStrip_eq_self _
    (by rfl)
    (by
      rw [getLastD_append_char, getLastD_append_char]
      rfl)]
  simp only []
  rw [show jsonLoads ("```json\n".toList ++ (verdictText pc sc ex ++ "\n```".toList))
      = none from by
    rw [show "```json\n".toList ++ (verdictText pc sc ex ++ "\n```".toList)
        = '`' :: ("``json\n".toList ++ (verdictText pc sc ex ++ "\n```".toList)) from rfl]
    exact jsonLoads_head_fail _ _ (by decide)]
  simp only []
  unfold strat2
  rw [findFenced_fencedText pc sc ex hpc hsc hex]
  simp only [jsonLoads_verdictText pc sc ex hpc hsc hex]

theorem proseChar_props (c : Char) (h : proseChar c = true) :
    ¬(c = '\x7b') ∧ ¬(c = '\x7d') ∧ ¬(c = '`') := by
  simp only [proseChar, Bool.and_eq_true, Bool.not_eq_true',
    beq_eq_false_iff_ne] at h
  exact ⟨h.1.1, h.1.2, h.2⟩

theorem headFailChar_ws (c : Char) (h : headFailChar c = true) :
    isPyWs c = false := by
  simp only [headFailChar, Bool.and_eq_true, Bool.not_eq_true,
    Bool.not_eq_true'] at h
  exact h.1.1.1.1.1.1.1.1.1.1

theorem verdictText_no_backtick (pc sc ex : List Char)
    (hpc : ∀ c ∈ pc, fieldChar c = true) (hsc : ∀ c ∈ sc, fieldChar c = true)
    (hex : ∀ c ∈ ex, fieldChar c = true) :
    ∀ c ∈ verdictText pc sc ex, ¬(c = '`') := by
  intro c hc
  rw [verdictText_shape] at hc
  simp only [List.mem_cons, List.mem_append, List.not_mem_nil, or_false] at hc
  rcases hc with h | h | h
  · subst h; decide
  · exact (vtInterior_chars pc sc ex hpc hsc hex c h).2.2
  · subst h; decide

theorem parseResponse_prose (pc sc ex : List Char) (c1 : Char)
    (p1r p2 : List Char)
    (hpc : ∀ c ∈ pc, fieldChar c = true) (hsc : ∀ c ∈ sc, fieldChar c = true)
    (hex : ∀ c ∈ ex, fieldChar c = true)
    (hc1 : headFailChar c1 = true)
    (hp1 : ∀ c ∈ c1 :: p1r, proseChar c = true)
    (hp2 : ∀ c ∈ p2, proseChar c = true)
    (hp2last : isPyWs (p2.getLastD '\x7d') = false) :
    parseResponse ((c1 :: p1r) ++ (verdictText pc sc ex ++ p2))
      = .ok (verdictObj pc sc ex) := by
  unfold parseResponse
  rw [pyStrip_eq_self _
    (by
      rw [show (c1 :: p1r) ++ (verdictText pc sc ex ++ p2)
          = c1 :: (p1r ++ (verdictText pc sc ex ++ p2)) from rfl]
      simp only [List.headD_cons]
      exact headFailChar_ws c1 hc1)
    (by
      rw [getLastD_append_char, getLastD_append_char, verdictText_getLast]
      exact hp2last)]
  simp only []
  rw [show jsonLoads ((c1 :: p1r) ++ (verdictText pc sc ex ++ p2)) = none from by
    rw [show (c1 :: p1r) ++ (verdictText pc sc ex ++ p2)
        = c1 :: (p1r ++ (verdictText pc sc ex ++ p2)) from rfl]
    exact jsonLoads_head_fail _ _ hc1]
  simp only []
  unfold strat2
  rw [findFenced_none _ (by
    intro c hc
    simp only [List.mem_append] at hc
    rcases hc with h | h | h
    · exact (proseChar_props c (hp1 c h)).2.2
    · exact verdictText_no_backtick pc sc ex hpc hsc hex c h
    · exact (proseChar_props c (hp2 c h)).2.2)]
  unfold strat3
  rw [findPC_skip (c1 :: p1r) _
    (fun c hc => (proseChar_props c (hp1 c hc)).1)]
  rw [verdictText_shape, List.cons_append, List.append_assoc,
    show ['\x7d'] ++ p2 = '\x7d' :: p2 from rfl]
  rw [findPC]
  rw [pcAttempt_hit (vtInterior pc sc ex) p2
    (fun c hc => ⟨(vtInterior_chars pc sc ex hpc hsc hex c hc).1,
                  (vtInterior_chars pc sc ex hpc hsc hex c hc).2.1⟩)
    (by
      rw [show vtInterior pc sc ex
          = pcLit ++ (':' :: ' ' :: '"' :: (pc ++
              "\", \"sub_category\": \"".toList ++ sc ++
              "\", \"explanation\": \"".toList ++ ex ++ ['"'])) from by
        simp [vtInterior, pcLit, List.append_assoc]
      ]
      exact containsSub_of_head _ _ (by simp [pcLit]))]
  rw [show '\x7b' :: (vtInterior pc sc ex ++ ['\x7d']) = verdictText pc sc ex from
    (verdictText_shape pc sc ex).symm]
  simp only [jsonLoads_verdictText pc sc ex hpc hsc hex]

theorem findPC_none (l : List Char) (h : ∀ c ∈ l, ¬(c = '\x7b')) :
    findPC l = none := by
  have := findPC_skip l [] h
  rw [List.append_nil] at this
  rw [this]
  rfl

theorem parseResponse_no_json (c0 : Char) (nr : List Char)
    (hc0 : headFailChar c0 = true)
    (hall : ∀ x ∈ c0 :: nr, ¬(x = '`') ∧ ¬(x = '\x7b'))
    (hlast : isPyWs ((c0 :: nr).getLastD 'x') = false) :
    parseResponse (c0 :: nr) = .ok (parseErrVerdict (c0 :: nr)) := by
  unfold parseResponse
  rw [pyStrip_eq_self _
    (by simp only [List.headD_cons]; exact headFailChar_ws c0 hc0)
    hlast]
  simp only []
  rw [jsonLoads_head_fail c0 nr hc0]
  simp only []
  unfold strat2
  rw [findFenced_none _ (fun c hc => (hall c hc).1)]
  unfold strat3
  rw [findPC_none _ (fun c hc => (hall c hc).2)]

/-- Claim C5 (corrected, amended): for canonical verdict JSON built from
field strings over a safe character class (printable, no quote, backslash,
brace or backtick), parse_response maps the bare JSON text, the same text
in a ```json fence, and the same text embedded in brace-free, backtick-free
prose (starting with a letter that cannot begin a JSON value and ending in
a non-space) to the same parsed verdict object; and a text with no brace,
no backtick and such a starting letter yields the parse_error sentinel
verdict.  The counterexample shows the original claim fails both for a
verdict object with nested braces in prose (the strategy-3 regex cannot
cross brace nesting) and for text whose whole-text JSON parse yields a
non-container (the membership test raises TypeError instead of returning
a parse_error verdict). -/
theorem C5_parse_response_robustness
    (pc sc ex : List Char) (c1 : Char) (p1r p2 : List Char)
    (c0 : Char) (nr : List Char)
    (hpc : ∀ c ∈ pc, fieldChar c = true) (hsc : ∀ c ∈ sc, fieldChar c = true)
    (hex : ∀ c ∈ ex, fieldChar c = true)
    (hc1 : headFailChar c1 = true)
    (hp1 : ∀ c ∈ c1 :: p1r, proseChar c = true)
    (hp2 : ∀ c ∈ p2, proseChar c = true)
    (hp2last : isPyWs (p2.getLastD '\x7d') = false)
    (hc0 : headFailChar c0 = true)
    (hnall : ∀ x ∈ c0 :: nr, ¬(x = '`') ∧ ¬(x = '\x7b'))
    (hnlast : isPyWs ((c0 :: nr).getLastD 'x') = false) :
    parseResponse (verdictText pc sc ex) = .ok (verdictObj pc sc ex)
    ∧ parseResponse ("```json\n".toList ++ (verdictText pc sc ex ++ "\n```".toList))
        = .ok (verdictObj pc sc ex)
    ∧ parseResponse ((c1 :: p1r) ++ (verdictText pc sc ex ++ p2))
        = .ok (verdictObj pc sc ex)
    ∧ parseResponse (c0 :: nr) = .ok (parseErrVerdict (c0 :: nr))
    ∧ pyIndex (parseErrVerdict (c0 :: nr)) "primary_category"
        = .ok (jstr "parse_error") :=
  ⟨parseResponse_bare pc sc ex hpc hsc hex,
   parseResponse_fenced pc sc ex hpc hsc hex,
   parseResponse_prose pc sc ex c1 p1r p2 hpc hsc hex hc1 hp1 hp2 hp2last,
   parseResponse_no_json c0 nr hc0 hnall hnlast,
   rfl⟩

def c5nested : List Char :=
  "\x7b\"primary_category\": \"wrong_tool\", \"meta\": \x7b\"x\": 1\x7d\x7d".toList

def c5prose : List Char := "the verdict is ".toList ++ c5nested

def c5nestedObj : JVal :=
  jobj [("primary_category", jstr "wrong_tool"),
        ("meta", jobj [("x", jnum 1)])]

/-- C5 counterexample: a verdict object with one nested brace pair parses
from bare text but not from surrounding prose (strategy 3 regex cannot
match nested braces, so the prose form degrades to a parse_error
sentinel); and on the text "null" (no JSON object extractable) the
membership test of strategy 1 raises TypeError instead of producing the
parse_error verdict. -/
theorem C5_parse_response_robustness_counterexample :
    parseResponse c5nested = .ok c5nestedObj
    ∧ parseResponse c5prose = .ok (parseErrVerdict c5prose)
    ∧ pyIndex c5nestedObj "primary_category" = .ok (jstr "wrong_tool")
    ∧ pyIndex (parseErrVerdict c5prose) "primary_category"
        = .ok (jstr "parse_error")
    ∧ ¬(("wrong_tool" : String) = "parse_error")
    ∧ parseResponse "null".toList
        = .error (.typeError "argument is not iterable") :=
  ⟨rfl, rfl, rfl, rfl, by decide, rfl⟩

/-- C5 witness: the amended theorem at concrete fields and prose. -/
theorem C5_parse_response_robustness_witness :
    parseResponse (verdictText "wrong_tool".toList "s".toList "e".toList)
        = .ok (verdictObj "wrong_tool".toList "s".toList "e".toList)
    ∧ parseResponse ("```json\n".toList
        ++ (verdictText "wrong_tool".toList "s".toList "e".toList ++ "\n```".toList))
        = .ok (verdictObj "wrong_tool".toList "s".toList "e".toList)
    ∧ parseResponse (('h' :: "ere: ".toList)
        ++ (verdictText "wrong_tool".toList "s".toList "e".toList ++ " done".toList))
        = .ok (verdictObj "wrong_tool".toList "s".toList "e".toList)
    ∧ parseResponse ('h' :: "ello".toList)
        = .ok (parseErrVerdict ('h' :: "ello".toList))
    ∧ pyIndex (parseErrVerdict ('h' :: "ello".toList)) "primary_category"
        = .ok (jstr "parse_error") :=
  C5_parse_response_robustness "wrong_tool".toList "s".toList "e".toList
    'h' "ere: ".toList " done".toList 'h' "ello".toList
    (by decide) (by decide) (by decide) (by decide) (by decide) (by decide)
    (by decide) (by decide) (by decide) (by decide)
